import Mathlib

/-!
# opencv-stereo: a verification development

Shallow embedding of `sensors/stereo/opencv-stereo.cpp` (the stereo grabber that
reads two Firefly MV cameras through libdc1394, runs `StereoBarryMoore` on each
pair and publishes the points through lcmgl).

* The program is modelled by the trace of library calls it makes and by the way
  the process ends.  Values returned by the libraries are inputs of the model.
* Signed C++ integers (`int`, `long`) are `Int`: signed overflow is undefined,
  so a defined execution computes the mathematical value.  The one conversion
  to an unsigned type (`elapsed`) reduces modulo `2 ^ 64`.
* `float` values are their 32 bit patterns; unary minus flips the sign bit.
* Undefined behaviour ends a run: after a failed dequeue `GetFrameFormat7` reads
  through a pointer that was never set, and the run stands as `undefined`.
-/

namespace OpencvStereo

/-! ## Data -/

/-- The header of a `cv::Mat` of type `CV_8UC1`: `rows`, `cols`, the row stride
`step` in bytes and the address `data` of pixel (0, 0). -/
structure Mat where
  rows : Nat
  cols : Nat
  step : Nat
  data : Nat
deriving DecidableEq, Repr

/-- The fields of `BarryMooreState` that `main` touches.  The struct is declared
in `barrymoore.hpp`; the four tuning fields are taken to be `int`. -/
structure BarryMooreState where
  disparity : Int
  sobelLimit : Int
  blockSize : Int
  sadThreshold : Int
  mapxL : Mat
  mapxR : Mat
  Q : Mat
deriving DecidableEq, Repr

/-- A `struct timeval`. -/
structure timeval where
  tv_sec : Int
  tv_usec : Int
deriving DecidableEq, Repr

/-! ## The tuning switch (lines 371-407) -/

/-- The `switch (key)` of `main`, on the parameter state and the `quit` flag.
A key that matches no `case` falls through the switch. -/
def keySwitch (key : Char) (state : BarryMooreState) (quit : Bool) :
    BarryMooreState × Bool :=
  if key = 'T' then ({ state with disparity := state.disparity - 1 }, quit)
  else if key = 'R' then ({ state with disparity := state.disparity + 1 }, quit)
  else if key = 'w' then ({ state with sobelLimit := state.sobelLimit + 10 }, quit)
  else if key = 's' then ({ state with sobelLimit := state.sobelLimit - 10 }, quit)
  else if key = 'g' then ({ state with blockSize := state.blockSize + 1 }, quit)
  else if key = 'b' then ({ state with blockSize := state.blockSize - 1 }, quit)
  else if key = 'y' then ({ state with sadThreshold := state.sadThreshold + 1 }, quit)
  else if key = 'h' then ({ state with sadThreshold := state.sadThreshold - 1 }, quit)
  else if key = 'q' then (state, true)
  else (state, quit)

/-- The switch applied to a sequence of keys, one per loop cycle, in order. -/
def applyKeys : List Char → BarryMooreState → BarryMooreState
  | [], state => state
  | key :: keys, state => applyKeys keys (keySwitch key state false).1

/-- The default parameters of lines 228-235, on the calibration maps loaded
before. -/
def defaultState (mx1fp mx2fp qMat : Mat) : BarryMooreState :=
  { disparity := 30, sobelLimit := 260, blockSize := 5, sadThreshold := 79,
    mapxL := mx1fp, mapxR := mx2fp, Q := qMat }

/-! ## The frame-rate clock (lines 418-427) -/

/-- The right-hand side of the assignment to `elapsed`, in `long` arithmetic
with the truncating division of C++. -/
def elapsedExpr (start now : timeval) : Int :=
  (now.tv_usec.tdiv 1000 + now.tv_sec * 1000) -
    (start.tv_usec.tdiv 1000 + start.tv_sec * 1000)

/-- Conversion of a `long` to `unsigned long` (64 bits). -/
def toUnsignedLong (x : Int) : Int := x % 2 ^ 64

/-- The value stored in `unsigned long elapsed`. -/
def elapsed (start now : timeval) : Int := toUnsignedLong (elapsedExpr start now)

/-- The true difference `now - start` in microseconds. -/
def microsBetween (start now : timeval) : Int :=
  (now.tv_sec - start.tv_sec) * 1000000 + (now.tv_usec - start.tv_usec)

/-! ## Memory, frames and `GetFrameFormat7` (lines 519-539) -/

/-- Byte-addressed memory.  Addresses below `ring` are the capture ring buffers
that the driver fills; addresses from `brk` on have not been handed out by the
allocator yet. -/
structure Heap where
  bytes : Nat → Nat
  ring : Nat
  brk : Nat

/-- The driver stores byte `w.2` at address `w.1`.  The driver writes into its
ring buffers only. -/
def Heap.dmaWrite (h : Heap) (w : Nat × Nat) : Heap :=
  if w.1 < h.ring then
    { h with bytes := fun a => if a = w.1 then w.2 else h.bytes a }
  else h

/-- A sequence of driver stores, in order. -/
def Heap.dma (h : Heap) (ws : List (Nat × Nat)) : Heap := ws.foldl Heap.dmaWrite h

/-- The pixel at row `r`, column `c` of a `CV_8UC1` matrix: the byte at
`data + r * step + c`. -/
def Mat.pixel (h : Heap) (m : Mat) (r c : Nat) : Nat := h.bytes (m.data + r * m.step + c)

/-- The pixels of a matrix, row by row. -/
def Mat.read (h : Heap) (m : Mat) : List (List Nat) :=
  (List.range m.rows).map fun r => (List.range m.cols).map fun c => m.pixel h r c

/-- The method `Mat::clone`: a fresh continuous block of `rows * cols` bytes is
allocated and the pixels are copied into it row by row. -/
def Mat.clone (h : Heap) (m : Mat) : Heap × Mat :=
  ({ h with
      bytes := fun a =>
        if h.brk ≤ a ∧ a < h.brk + m.rows * m.cols then
          m.pixel h ((a - h.brk) / m.cols) ((a - h.brk) % m.cols)
        else h.bytes a
      brk := h.brk + m.rows * m.cols },
   { rows := m.rows, cols := m.cols, step := m.cols, data := h.brk })

/-- The fields of `dc1394video_frame_t` that the program reads: `size[0]`
(width), `size[1]` (height) and the address `image` of the buffer. -/
structure dc1394video_frame_t where
  size0 : Nat
  size1 : Nat
  image : Nat
deriving DecidableEq, Repr

/-- What one call of `dc1394_capture_dequeue` followed by
`dc1394_capture_enqueue` does, as seen by the program: the bytes the driver
stored in its ring buffers before the dequeue returned, the error code of the
dequeue, the descriptor that the local pointer `frame` designates after a
successful dequeue, and the error code of the enqueue.  A dequeue that fails
does not deliver a descriptor: the pointer, declared without initialiser at
line 523, is then null or indeterminate and `frame` below is not read. -/
structure Capture where
  dma : List (Nat × Nat)
  err : Int
  frame : dc1394video_frame_t
  enqueueErr : Int

/-- The two camera globals. -/
inductive Cam where
  | camera
  | camera2
deriving DecidableEq, Repr

/-- The two driver-context globals. -/
inductive Ctx where
  | d
  | d2
deriving DecidableEq, Repr

/-- The calls that the model records, with the arguments that matter.  A camera
or context argument is the global variable passed.  `cleanup_and_exit` is
declared in `camera.h`; the trace records the call, not what it does. -/
inductive Event where
  | cerr
  | cout
  | dc1394_log_warning
  | dc1394_log_error
  | dc1394_new (c : Ctx)
  | dc1394_camera_new (c : Cam)
  | dc1394_reset_bus (c : Cam)
  | setup_gray_capture (c : Cam)
  | dc1394_feature_set_power (c : Cam)
  | dc1394_feature_set_mode (c : Cam)
  | dc1394_video_set_transmission (c : Cam) (pwr : Bool)
  | dc1394_capture_stop (c : Cam)
  | dc1394_camera_free (c : Cam)
  | dc1394_free (c : Ctx)
  | cleanup_and_exit (c : Cam)
  | dc1394_capture_dequeue (c : Cam)
  | dc1394_capture_enqueue (c : Cam) (frame : dc1394video_frame_t)
  | StereoBarryMoore (matL matR : List (List Nat)) (state : BarryMooreState)
  | bot_lcmgl_push_matrix
  | bot_lcmgl_point_size
  | bot_lcmgl_begin
  | bot_lcmgl_vertex3f (x y z : Nat)
  | bot_lcmgl_end
  | bot_lcmgl_pop_matrix
  | bot_lcmgl_switch_buffer
  | printf (numFrames : Int) (elapsed : Int)
deriving DecidableEq, Repr

/-- The code `DC1394_SUCCESS` of `dc1394error_t`.  The error codes and the three
macros `DC1394_WRN`, `DC1394_ERR_RTN` and `DC1394_ERR_CLN_RTN` belong to
libdc1394 2 (`dc1394/types.h`, `dc1394/log.h`), which the file includes at
line 40; the codes run from `DC1394_SUCCESS = 0` down to
`DC1394_BASLER_UNKNOWN_SFF_CHUNK = -39`. -/
def DC1394_SUCCESS : Int := 0

/-- The code `DC1394_FAILURE`. -/
def DC1394_FAILURE : Int := -1

/-- The number of error codes, `DC1394_ERROR_MAX - DC1394_ERROR_MIN + 1`. -/
def DC1394_ERROR_NUM : Int := 40

/-- The code `DC1394_INVALID_ERROR_CODE`. -/
def DC1394_INVALID_ERROR_CODE : Int := -28

/-- The first statement of the three libdc1394 macros (`dc1394/log.h`):
`if ((err>0)||(err<=-DC1394_ERROR_NUM)) err=DC1394_INVALID_ERROR_CODE;`. -/
def normalise (err : Int) : Int :=
  if err > 0 ∨ err ≤ -DC1394_ERROR_NUM then DC1394_INVALID_ERROR_CODE else err

/-- The macro `DC1394_WRN(err, message)` of libdc1394: after the normalisation,
`if (err!=DC1394_SUCCESS) dc1394_log_warning(...)`; control goes on. -/
def DC1394_WRN (err : Int) : List Event :=
  if normalise err ≠ DC1394_SUCCESS then [Event.dc1394_log_warning] else []

/-- The header `matTmp` of line 529 over the dequeued buffer: `size[1]` rows,
`size[0]` columns, stride `size[0]`, data at `frame->image`. -/
def matTmp (frame : dc1394video_frame_t) : Mat :=
  { rows := frame.size1, cols := frame.size0, step := frame.size0, data := frame.image }

/-- Lines 529-532 after a successful dequeue: the memory that the driver has
filled and the clone has extended, and the header of the clone `matOut`. -/
def captured (h : Heap) (cap : Capture) : Heap × Mat :=
  (matTmp cap.frame).clone (h.dma cap.dma)

/-- The result of `GetFrameFormat7`: the calls made and, when the function
returns, the memory afterwards with the header of the matrix returned.
`result = none`: the function does not return, its behaviour is undefined
from line 529 on. -/
structure FrameResult where
  events : List Event
  result : Option (Heap × Mat)

/-- The function `GetFrameFormat7`.  The dequeue is followed by `DC1394_WRN`,
which only logs.  Line 529 then reads `frame->size` and `frame->image`: after a
successful dequeue this is the descriptor delivered, `matOut` is the clone of
the header over it and the buffer is enqueued again; after a failed dequeue
the pointer was never set to a descriptor and the read is undefined
behaviour. -/
def GetFrameFormat7 (cam : Cam) (h : Heap) (cap : Capture) : FrameResult :=
  if cap.err = DC1394_SUCCESS then
    { events :=
        [Event.dc1394_capture_dequeue cam] ++ DC1394_WRN cap.err ++
          [Event.dc1394_capture_enqueue cam cap.frame] ++ DC1394_WRN cap.enqueueErr
      result := some (captured h cap) }
  else
    { events := [Event.dc1394_capture_dequeue cam] ++ DC1394_WRN cap.err
      result := none }

/-- Later captures, each one a call of `GetFrameFormat7`, applied in order, as
far as they return; at a capture that does not return only the stores of the
driver are left. -/
def laterCaptures (cam : Cam) : Heap → List Capture → Heap
  | h, [] => h
  | h, cap :: caps =>
    match (GetFrameFormat7 cam h cap).result with
    | some out => laterCaptures cam out.1 caps
    | none => h.dma cap.dma

/-! ## The program -/

/-- A `cv::Point3f`: three `float`s, each as its 32 bit pattern. -/
structure Point3f where
  x : Nat
  y : Nat
  z : Nat
deriving DecidableEq, Repr

/-- A `cv::Point`: two `int`s. -/
structure Point where
  x : Int
  y : Int
deriving DecidableEq, Repr

/-- Unary minus on a `float`: the sign bit (bit 31) is flipped. -/
def fneg (b : Nat) : Nat := if b < 2 ^ 31 then b + 2 ^ 31 else b - 2 ^ 31

/-- What the file does not define: the compile-time flag `SHOW_DISPLAY`, the
matcher `StereoBarryMoore` of `barrymoore.hpp` (as the contents it leaves in
`pointVector3d` and `pointVector2d`, from the pixels of the two frames and the
parameter state), and whether `cleanup_and_exit` of `camera.h` ends the process
(`some v`: it calls `exit(v)`; `none`: it returns). -/
structure Config where
  SHOW_DISPLAY : Bool
  StereoBarryMoore :
    List (List Nat) → List (List Nat) → BarryMooreState → List Point3f × List Point
  cleanupExit : Option Int

/-- One cycle of the loop, as far as the environment decides it: the two
captures, the key returned by `waitKey(1)` converted to `char`, and the time
read by `gettimeofday(&now)`. -/
structure Cycle where
  left : Capture
  right : Capture
  key : Char
  now : timeval

/-- Everything the environment decides in one run of `main`: which of the four
handles come back null, the error codes of the checked driver calls of the
startup (lines 160-186), the calibration maps, the memory and the clock when
the loop starts, the cycles, and the error codes of the two checked
`dc1394_video_set_transmission(.., DC1394_OFF)` calls (lines 439-443). -/
structure Input where
  d_null : Bool
  d2_null : Bool
  camera_null : Bool
  camera2_null : Bool
  setup_err : Int
  setup_err2 : Int
  power_err : Int
  mode_err : Int
  power_err2 : Int
  mode_err2 : Int
  on_err : Int
  on_err2 : Int
  mx1fp : Mat
  mx2fp : Mat
  qMat : Mat
  heap : Heap
  start : timeval
  cycles : List Cycle
  off_err : Int
  off_err2 : Int

/-- How a run stands at the end of its trace: `exited status` when the process
has ended with that exit status, `running` when `main` is still in its loop
(the cycles given are used up and `quit` is false), `undefined` when the
program has run into undefined behaviour (the read of line 529 after a failed
dequeue, on which the process is typically killed by a signal). -/
inductive Outcome where
  | running
  | exited (status : Int)
  | undefined
deriving DecidableEq, Repr

/-- A run: the calls made, in order, and how it stands. -/
structure Run where
  trace : List Event
  outcome : Outcome
deriving DecidableEq, Repr

/-- The exit status of a process that ends with `exit(v)` or with `return v`
from `main`: the low eight bits of `v`. -/
def exitStatus (v : Int) : Int := v % 256

/-- The calls `es`, then the run `r`. -/
def Run.after (es : List Event) (r : Run) : Run :=
  { trace := es ++ r.trace, outcome := r.outcome }

/-- The macro `DC1394_ERR_RTN(err, message)` of libdc1394 inside `main`: after
the normalisation, `if (err!=DC1394_SUCCESS) { dc1394_log_error(...); return err; }`. -/
def DC1394_ERR_RTN (err : Int) (rest : Run) : Run :=
  if normalise err ≠ DC1394_SUCCESS then
    { trace := [Event.dc1394_log_error],
      outcome := Outcome.exited (exitStatus (normalise err)) }
  else rest

/-- The macro `DC1394_ERR_CLN_RTN(err, cleanup_and_exit(c), message)` of
libdc1394 inside `main`: after the normalisation,
`if (err!=DC1394_SUCCESS) { dc1394_log_error(...); cleanup_and_exit(c); return err; }`. -/
def DC1394_ERR_CLN_RTN (cfg : Config) (err : Int) (c : Cam) (rest : Run) : Run :=
  if normalise err ≠ DC1394_SUCCESS then
    { trace := [Event.dc1394_log_error, Event.cleanup_and_exit c],
      outcome :=
        match cfg.cleanupExit with
        | some v => Outcome.exited (exitStatus v)
        | none => Outcome.exited (exitStatus (normalise err)) }
  else rest

/-- The function `control_c_handler` (lines 82-99): both cameras are switched
off, stopped and freed, both contexts are freed, and the process ends with
`exit(1)`. -/
def control_c_handler : Run :=
  { trace :=
      [ Event.cout,
        Event.dc1394_video_set_transmission Cam.camera false,
        Event.dc1394_capture_stop Cam.camera,
        Event.dc1394_camera_free Cam.camera,
        Event.dc1394_video_set_transmission Cam.camera2 false,
        Event.dc1394_capture_stop Cam.camera2,
        Event.dc1394_camera_free Cam.camera2,
        Event.dc1394_free Ctx.d,
        Event.dc1394_free Ctx.d2 ],
    outcome := Outcome.exited (exitStatus 1) }

/-- The variables of `main` that live across cycles. -/
structure LoopState where
  heap : Heap
  state : BarryMooreState
  quit : Bool
  numFrames : Int

/-- The body of the `while` loop (lines 255-427): the calls made and, when the
cycle is carried out to its end, the variables it leaves; `none` when one of
the two calls of `GetFrameFormat7` does not return.  Of the code under
`SHOW_DISPLAY` the model keeps `waitKey` and the switch; the drawing and the
console echo are left out. -/
def cycle (cfg : Config) (start : timeval) (st : LoopState) (c : Cycle) :
    List Event × Option LoopState :=
  let l := GetFrameFormat7 Cam.camera st.heap c.left
  match l.result with
  | none => (l.events, none)
  | some outL =>
    let r := GetFrameFormat7 Cam.camera2 outL.1 c.right
    match r.result with
    | none => (l.events ++ r.events, none)
    | some outR =>
      let matL := outL.2.read outR.1
      let matR := outR.2.read outR.1
      let pointVector3d := (cfg.StereoBarryMoore matL matR st.state).1
      let next :=
        if cfg.SHOW_DISPLAY then keySwitch c.key st.state st.quit else (st.state, st.quit)
      let numFrames := st.numFrames + 1
      (l.events ++ r.events ++ [Event.StereoBarryMoore matL matR st.state] ++
          [Event.bot_lcmgl_push_matrix, Event.bot_lcmgl_point_size, Event.bot_lcmgl_begin] ++
          pointVector3d.map (fun p => Event.bot_lcmgl_vertex3f p.z p.x (fneg p.y)) ++
          [Event.bot_lcmgl_end, Event.bot_lcmgl_pop_matrix, Event.bot_lcmgl_switch_buffer] ++
          [Event.printf numFrames (elapsed start c.now)],
        some { heap := outR.1, state := next.1, quit := next.2, numFrames := numFrames })

/-- The code after the loop (lines 438-457): the two checked
`dc1394_video_set_transmission(.., DC1394_OFF)` calls, then both cameras are
switched off, stopped and freed, both contexts are freed, and `main` returns 0. -/
def teardown (cfg : Config) (inp : Input) : Run :=
  Run.after [Event.dc1394_video_set_transmission Cam.camera false] <|
  DC1394_ERR_CLN_RTN cfg inp.off_err Cam.camera <|
  Run.after [Event.dc1394_video_set_transmission Cam.camera2 false] <|
  DC1394_ERR_CLN_RTN cfg inp.off_err2 Cam.camera2 <|
  { trace :=
      [ Event.dc1394_video_set_transmission Cam.camera false,
        Event.dc1394_capture_stop Cam.camera,
        Event.dc1394_camera_free Cam.camera,
        Event.dc1394_video_set_transmission Cam.camera2 false,
        Event.dc1394_capture_stop Cam.camera2,
        Event.dc1394_camera_free Cam.camera2,
        Event.dc1394_free Ctx.d,
        Event.dc1394_free Ctx.d2 ],
    outcome := Outcome.exited (exitStatus 0) }

/-- The loop `while (quit == false)` followed by the code after it.  When the
cycles given are used up with `quit` still false the run stands as `running`;
a cycle that is not carried out to its end leaves the run `undefined`. -/
def loop (cfg : Config) (inp : Input) : LoopState → List Cycle → Run
  | st, [] => if st.quit then teardown cfg inp else { trace := [], outcome := Outcome.running }
  | st, c :: cs =>
    if st.quit then teardown cfg inp
    else
      match (cycle cfg inp.start st c).2 with
      | none => { trace := (cycle cfg inp.start st c).1, outcome := Outcome.undefined }
      | some next => Run.after (cycle cfg inp.start st c).1 (loop cfg inp next cs)

/-- The variables of `main` when the loop is entered: the default parameters on
the calibration maps, `quit = false`, `numFrames = 0`. -/
def loopStart (inp : Input) : LoopState :=
  { heap := inp.heap, state := defaultState inp.mx1fp inp.mx2fp inp.qMat,
    quit := false, numFrames := 0 }

/-- The function `main` (lines 101-458), built without `USE_IMAGE`. -/
def main (cfg : Config) (inp : Input) : Run :=
  Run.after ([Event.dc1394_new Ctx.d] ++ (if inp.d_null then [Event.cerr] else [])) <|
  Run.after ([Event.dc1394_new Ctx.d2] ++ (if inp.d2_null then [Event.cerr] else [])) <|
  Run.after ([Event.dc1394_camera_new Cam.camera] ++
    (if inp.camera_null then [Event.cerr] else [])) <|
  Run.after ([Event.dc1394_camera_new Cam.camera2] ++
    (if inp.camera2_null then [Event.cerr] else [])) <|
  Run.after [Event.dc1394_reset_bus Cam.camera, Event.dc1394_reset_bus Cam.camera2] <|
  Run.after [Event.setup_gray_capture Cam.camera] <|
  DC1394_ERR_CLN_RTN cfg inp.setup_err Cam.camera <|
  Run.after [Event.setup_gray_capture Cam.camera2] <|
  DC1394_ERR_CLN_RTN cfg inp.setup_err2 Cam.camera2 <|
  Run.after [Event.dc1394_feature_set_power Cam.camera] <|
  DC1394_ERR_RTN inp.power_err <|
  Run.after [Event.dc1394_feature_set_mode Cam.camera] <|
  DC1394_ERR_RTN inp.mode_err <|
  Run.after [Event.dc1394_feature_set_power Cam.camera2] <|
  DC1394_ERR_RTN inp.power_err2 <|
  Run.after [Event.dc1394_feature_set_mode Cam.camera2] <|
  DC1394_ERR_RTN inp.mode_err2 <|
  Run.after [Event.dc1394_video_set_transmission Cam.camera true] <|
  DC1394_ERR_CLN_RTN cfg inp.on_err Cam.camera <|
  Run.after [Event.dc1394_video_set_transmission Cam.camera2 true] <|
  DC1394_ERR_CLN_RTN cfg inp.on_err2 Cam.camera2 <|
  loop cfg inp (loopStart inp) inp.cycles

/-- A run of the process.  `sigint = none`: no SIGINT arrives.  `sigint = some k`:
SIGINT arrives when `main` has made `k` of its calls and has not ended; the
handler runs from there and ends the process.  When `main` makes fewer than `k`
calls the signal comes too late to be handled. -/
def execute (cfg : Config) (inp : Input) (sigint : Option Nat) : Run :=
  match sigint with
  | none => main cfg inp
  | some k =>
    if k ≤ (main cfg inp).trace.length then
      { trace := (main cfg inp).trace.take k ++ control_c_handler.trace,
        outcome := control_c_handler.outcome }
    else main cfg inp

/-! ## Observations on a trace -/

/-- The lcmgl client (`bot_lcmgl_client`): `bot_lcmgl_vertex3f` appends a
vertex to the buffer, `bot_lcmgl_switch_buffer` publishes the buffer as one
message and empties it. -/
structure Lcmgl where
  buffer : List (Nat × Nat × Nat)
  sent : List (List (Nat × Nat × Nat))
deriving DecidableEq, Repr

/-- The effect of one call on the lcmgl client. -/
def Lcmgl.step (l : Lcmgl) : Event → Lcmgl
  | Event.bot_lcmgl_vertex3f x y z => { l with buffer := l.buffer ++ [(x, y, z)] }
  | Event.bot_lcmgl_switch_buffer => { buffer := [], sent := l.sent ++ [l.buffer] }
  | _ => l

/-- The lcmgl client after a trace. -/
def Lcmgl.run (l : Lcmgl) (tr : List Event) : Lcmgl := tr.foldl Lcmgl.step l

/-- The messages published by a trace, each as its list of vertices. -/
def published (tr : List Event) : List (List (Nat × Nat × Nat)) :=
  (Lcmgl.run { buffer := [], sent := [] } tr).sent

/-- The calls of `StereoBarryMoore` in a trace, with their arguments. -/
def matcherCalls : List Event → List (List (List Nat) × List (List Nat) × BarryMooreState)
  | [] => []
  | Event.StereoBarryMoore l r s :: tr => (l, r, s) :: matcherCalls tr
  | _ :: tr => matcherCalls tr

/-- How often a trace frees the camera `c` (`dc1394_camera_free`). -/
def cameraFrees (c : Cam) (tr : List Event) : Nat :=
  tr.count (Event.dc1394_camera_free c)

/-- How often a trace frees the context `c` (`dc1394_free`). -/
def contextFrees (c : Ctx) (tr : List Event) : Nat :=
  tr.count (Event.dc1394_free c)

/-- How many of the four tuning fields differ between two parameter states. -/
def changedFields (s t : BarryMooreState) : Nat :=
  (if s.disparity = t.disparity then 0 else 1) +
  (if s.sobelLimit = t.sobelLimit then 0 else 1) +
  (if s.blockSize = t.blockSize then 0 else 1) +
  (if s.sadThreshold = t.sadThreshold then 0 else 1)

/-- The eight keys that tune a parameter. -/
def tuningKeys : List Char := ['T', 'R', 'w', 's', 'g', 'b', 'y', 'h']

/-- The buffers handed back to the driver by a trace, in order. -/
def enqueued : List Event → List (Cam × dc1394video_frame_t)
  | [] => []
  | Event.dc1394_capture_enqueue c f :: tr => (c, f) :: enqueued tr
  | _ :: tr => enqueued tr

/-- The calls that only a loop cycle makes. -/
def Event.inCycle : Event → Bool
  | Event.dc1394_log_warning => true
  | Event.dc1394_capture_dequeue _ => true
  | Event.dc1394_capture_enqueue _ _ => true
  | Event.StereoBarryMoore _ _ _ => true
  | Event.bot_lcmgl_push_matrix => true
  | Event.bot_lcmgl_point_size => true
  | Event.bot_lcmgl_begin => true
  | Event.bot_lcmgl_vertex3f _ _ _ => true
  | Event.bot_lcmgl_end => true
  | Event.bot_lcmgl_pop_matrix => true
  | Event.bot_lcmgl_switch_buffer => true
  | Event.printf _ _ => true
  | _ => false

/-- Every checked driver call of the startup succeeds. -/
def startupOk (inp : Input) : Prop :=
  inp.setup_err = DC1394_SUCCESS ∧ inp.setup_err2 = DC1394_SUCCESS ∧
  inp.power_err = DC1394_SUCCESS ∧ inp.mode_err = DC1394_SUCCESS ∧
  inp.power_err2 = DC1394_SUCCESS ∧ inp.mode_err2 = DC1394_SUCCESS ∧
  inp.on_err = DC1394_SUCCESS ∧ inp.on_err2 = DC1394_SUCCESS

instance (inp : Input) : Decidable (startupOk inp) := by
  unfold startupOk; infer_instance

/-- The calls of a startup in which every checked driver call succeeds
(lines 130-186). -/
def startupCalls (inp : Input) : List Event :=
  [Event.dc1394_new Ctx.d] ++ (if inp.d_null then [Event.cerr] else []) ++
  ([Event.dc1394_new Ctx.d2] ++ (if inp.d2_null then [Event.cerr] else [])) ++
  ([Event.dc1394_camera_new Cam.camera] ++ (if inp.camera_null then [Event.cerr] else [])) ++
  ([Event.dc1394_camera_new Cam.camera2] ++ (if inp.camera2_null then [Event.cerr] else [])) ++
  [ Event.dc1394_reset_bus Cam.camera, Event.dc1394_reset_bus Cam.camera2,
    Event.setup_gray_capture Cam.camera, Event.setup_gray_capture Cam.camera2,
    Event.dc1394_feature_set_power Cam.camera, Event.dc1394_feature_set_mode Cam.camera,
    Event.dc1394_feature_set_power Cam.camera2, Event.dc1394_feature_set_mode Cam.camera2,
    Event.dc1394_video_set_transmission Cam.camera true,
    Event.dc1394_video_set_transmission Cam.camera2 true ]

/-- The cycles that the loop carries out to their end from a given point, each
with the variables of `main` at its start. -/
def cyclesRun (cfg : Config) (start : timeval) : LoopState → List Cycle → List (LoopState × Cycle)
  | _, [] => []
  | st, c :: cs =>
    if st.quit then []
    else
      match (cycle cfg start st c).2 with
      | none => []
      | some next => (st, c) :: cyclesRun cfg start next cs

/-- Both dequeues of the cycle succeed. -/
def Cycle.delivers (c : Cycle) : Bool :=
  decide (c.left.err = DC1394_SUCCESS) && decide (c.right.err = DC1394_SUCCESS)

/-- The loop ends through `quit` within the cycles given, from the value
`quit` of the flag on: the flag is set, or the next cycle captures both frames
and the loop ends through `quit` in the cycles after it, the flag then being
set when the program is built with `SHOW_DISPLAY` and the cycle reads q. -/
def quitsFrom (cfg : Config) : Bool → List Cycle → Bool
  | quit, [] => quit
  | quit, c :: cs =>
    quit || (c.delivers && quitsFrom cfg (cfg.SHOW_DISPLAY && decide (c.key = 'q')) cs)

/-- The loop entered with the variables `st` ends through `quit` within the
cycles given. -/
def quits (cfg : Config) (st : LoopState) (cycles : List Cycle) : Bool :=
  quitsFrom cfg st.quit cycles

/-- The run from the end of the last cycle carried out: the code after the
loop when the loop ends through `quit`, nothing otherwise, the run then being
`undefined` at a cycle that is not carried out to its end and `running` when
the cycles given are used up. -/
def afterLoop (cfg : Config) (inp : Input) : LoopState → List Cycle → Run
  | st, [] => if st.quit then teardown cfg inp else { trace := [], outcome := Outcome.running }
  | st, c :: cs =>
    if st.quit then teardown cfg inp
    else
      match (cycle cfg inp.start st c).2 with
      | none => { trace := [], outcome := Outcome.undefined }
      | some next => afterLoop cfg inp next cs

/-- The pixels of the buffer that a dequeue hands out, read in the ring buffer
when the dequeue returns: `size[1]` rows of `size[0]` bytes from `image` on. -/
def frameAtDequeue (h : Heap) (cap : Capture) : List (List Nat) :=
  (List.range cap.frame.size1).map fun r =>
    (List.range cap.frame.size0).map fun c =>
      (h.dma cap.dma).bytes (cap.frame.image + r * cap.frame.size0 + c)

/-- The vertex that the publish loop emits for a point: `(z, x, -y)`. -/
def vertexOf (p : Point3f) : Nat × Nat × Nat := (p.z, p.x, fneg p.y)

/-- The run ended on an error return without a single call of a loop cycle: the
exit status is the low byte of the normalised code of a failing call, or the
argument that `cleanup_and_exit` passes to `exit`. -/
def Run.aborted (cfg : Config) (r : Run) : Prop :=
  (∀ e ∈ r.trace, e.inCycle = false) ∧
  ∃ status err, r.outcome = Outcome.exited status ∧ err ≠ DC1394_SUCCESS ∧
    (status = exitStatus (normalise err) ∨
      ∃ v, cfg.cleanupExit = some v ∧ status = exitStatus v)

/-- The calls of the cycles that the loop enters, without the code after the
loop. -/
def loopBody (cfg : Config) (start : timeval) : LoopState → List Cycle → List Event
  | _, [] => []
  | st, c :: cs =>
    if st.quit then []
    else
      (cycle cfg start st c).1 ++
        match (cycle cfg start st c).2 with
        | none => []
        | some next => loopBody cfg start next cs

/-- The variables of `main` after the cycles that the loop carries out to their
end. -/
def loopState (cfg : Config) (start : timeval) : LoopState → List Cycle → LoopState
  | st, [] => st
  | st, c :: cs =>
    if st.quit then st
    else
      match (cycle cfg start st c).2 with
      | none => st
      | some next => loopState cfg start next cs

/-- The two frames captured in a cycle, each read in the ring buffer when its
dequeue returns: the left one, then the right one. -/
def cycleFrames (st : LoopState) (c : Cycle) : List (List Nat) × List (List Nat) :=
  (frameAtDequeue st.heap c.left, frameAtDequeue (captured st.heap c.left).1 c.right)

/-- The message that a cycle has to publish: the points that `StereoBarryMoore`
returns on the frames of the cycle and the parameters at its start, each as
its vertex `(z, x, -y)`, in order. -/
def cycleMessage (cfg : Config) (p : LoopState × Cycle) : List (Nat × Nat × Nat) :=
  (cfg.StereoBarryMoore (cycleFrames p.1 p.2).1 (cycleFrames p.1 p.2).2 p.1.state).1.map vertexOf

/-- The matcher call that a cycle has to make. -/
def cycleCall (p : LoopState × Cycle) : List (List Nat) × List (List Nat) × BarryMooreState :=
  ((cycleFrames p.1 p.2).1, (cycleFrames p.1 p.2).2, p.1.state)

/-- The calls that only the startup makes. -/
def Event.isStartup : Event → Bool
  | Event.cerr => true
  | Event.dc1394_new _ => true
  | Event.dc1394_camera_new _ => true
  | Event.dc1394_reset_bus _ => true
  | Event.setup_gray_capture _ => true
  | Event.dc1394_feature_set_power _ => true
  | Event.dc1394_feature_set_mode _ => true
  | Event.dc1394_video_set_transmission _ true => true
  | _ => false

/-- Each of the two cameras and each of the two contexts is freed exactly once
in the trace. -/
def freedOnce (tr : List Event) : Prop :=
  cameraFrees Cam.camera tr = 1 ∧ cameraFrees Cam.camera2 tr = 1 ∧
  contextFrees Ctx.d tr = 1 ∧ contextFrees Ctx.d2 tr = 1

instance (tr : List Event) : Decidable (freedOnce tr) := by
  unfold freedOnce; infer_instance

/-- The calls that free a camera or a context, or may do so: the two `free`
functions of libdc1394 and `cleanup_and_exit`. -/
def Event.mayFree : Event → Bool
  | Event.dc1394_camera_free _ => true
  | Event.dc1394_free _ => true
  | Event.cleanup_and_exit _ => true
  | _ => false

/-- The way a run ends when a check with `cleanup_and_exit` fails on the code
`err`: with the status that `cleanup_and_exit` passes to `exit` when it ends
the process, with the low byte of the normalised `err`, which `main` returns,
when it comes back. -/
def endsThroughCleanup (cfg : Config) (err : Int) (o : Outcome) : Prop :=
  (∀ v, cfg.cleanupExit = some v → o = Outcome.exited (exitStatus v)) ∧
  (cfg.cleanupExit = none → o = Outcome.exited (exitStatus (normalise err)))

/-! ## Sample inputs -/

/-- A memory with eight bytes of ring buffer, room for two frames of two by two
pixels, and nothing allocated behind them. -/
def sampleHeap : Heap := { bytes := fun _ => 0, ring := 8, brk := 8 }

/-- A capture of a frame of two by two pixels at address `image`, which the
driver fills with `b`, `b + 1`, `b + 2`, `b + 3`; the dequeue returns `err`. -/
def sampleCapture (image b : Nat) (err : Int) : Capture :=
  { dma := [(image, b), (image + 1, b + 1), (image + 2, b + 2), (image + 3, b + 3)],
    err := err,
    frame := { size0 := 2, size1 := 2, image := image },
    enqueueErr := DC1394_SUCCESS }

/-- A matcher that accepts one point, made of the pixel sums of the two frames
and of the disparity parameter. -/
def sampleMatcher (l r : List (List Nat)) (s : BarryMooreState) : List Point3f × List Point :=
  ([{ x := (l.map List.sum).sum, y := (r.map List.sum).sum, z := s.disparity.toNat }],
   [{ x := 0, y := 0 }])

/-- A build with `SHOW_DISPLAY`, the sample matcher, and a `cleanup_and_exit`
that ends the process with `exit(1)`. -/
def sampleConfig : Config :=
  { SHOW_DISPLAY := true, StereoBarryMoore := sampleMatcher, cleanupExit := some 1 }

/-- A cycle that captures two sample frames, reads the key `key`, and whose left
dequeue returns `err`. -/
def sampleCycle (key : Char) (err : Int) : Cycle :=
  { left := sampleCapture 0 10 err, right := sampleCapture 4 20 DC1394_SUCCESS,
    key := key, now := { tv_sec := 100, tv_usec := 5000 } }

/-- A run in which every handle is created and every driver call succeeds. -/
def sampleInput (cycles : List Cycle) : Input :=
  { d_null := false, d2_null := false, camera_null := false, camera2_null := false,
    setup_err := DC1394_SUCCESS, setup_err2 := DC1394_SUCCESS,
    power_err := DC1394_SUCCESS, mode_err := DC1394_SUCCESS,
    power_err2 := DC1394_SUCCESS, mode_err2 := DC1394_SUCCESS,
    on_err := DC1394_SUCCESS, on_err2 := DC1394_SUCCESS,
    mx1fp := { rows := 0, cols := 0, step := 0, data := 0 },
    mx2fp := { rows := 0, cols := 0, step := 0, data := 0 },
    qMat := { rows := 0, cols := 0, step := 0, data := 0 },
    heap := sampleHeap,
    start := { tv_sec := 100, tv_usec := 0 },
    cycles := cycles,
    off_err := DC1394_SUCCESS, off_err2 := DC1394_SUCCESS }


/-! ## Theorems -/

/-- The switch, case by case: one clause per `case` label and one for the keys
that match none. -/
theorem keySwitch_cases (key : Char) (s : BarryMooreState) (quit : Bool) :
    (key = 'T' ∧ keySwitch key s quit = ({ s with disparity := s.disparity - 1 }, quit)) ∨
    (key = 'R' ∧ keySwitch key s quit = ({ s with disparity := s.disparity + 1 }, quit)) ∨
    (key = 'w' ∧ keySwitch key s quit = ({ s with sobelLimit := s.sobelLimit + 10 }, quit)) ∨
    (key = 's' ∧ keySwitch key s quit = ({ s with sobelLimit := s.sobelLimit - 10 }, quit)) ∨
    (key = 'g' ∧ keySwitch key s quit = ({ s with blockSize := s.blockSize + 1 }, quit)) ∨
    (key = 'b' ∧ keySwitch key s quit = ({ s with blockSize := s.blockSize - 1 }, quit)) ∨
    (key = 'y' ∧ keySwitch key s quit = ({ s with sadThreshold := s.sadThreshold + 1 }, quit)) ∨
    (key = 'h' ∧ keySwitch key s quit = ({ s with sadThreshold := s.sadThreshold - 1 }, quit)) ∨
    (key = 'q' ∧ keySwitch key s quit = (s, true)) ∨
    ((key ≠ 'T' ∧ key ≠ 'R' ∧ key ≠ 'w' ∧ key ≠ 's' ∧ key ≠ 'g' ∧ key ≠ 'b' ∧ key ≠ 'y' ∧
        key ≠ 'h' ∧ key ≠ 'q') ∧ keySwitch key s quit = (s, quit)) := by
  by_cases hT : key = 'T'
  · subst hT; exact Or.inl ⟨rfl, rfl⟩
  by_cases hR : key = 'R'
  · subst hR; exact Or.inr (Or.inl ⟨rfl, rfl⟩)
  by_cases hw : key = 'w'
  · subst hw; exact Or.inr (Or.inr (Or.inl ⟨rfl, rfl⟩))
  by_cases hs : key = 's'
  · subst hs; exact Or.inr (Or.inr (Or.inr (Or.inl ⟨rfl, rfl⟩)))
  by_cases hg : key = 'g'
  · subst hg; exact Or.inr (Or.inr (Or.inr (Or.inr (Or.inl ⟨rfl, rfl⟩))))
  by_cases hb : key = 'b'
  · subst hb; exact Or.inr (Or.inr (Or.inr (Or.inr (Or.inr (Or.inl ⟨rfl, rfl⟩)))))
  by_cases hy : key = 'y'
  · subst hy; exact Or.inr (Or.inr (Or.inr (Or.inr (Or.inr (Or.inr (Or.inl ⟨rfl, rfl⟩))))))
  by_cases hh : key = 'h'
  · subst hh
    exact Or.inr (Or.inr (Or.inr (Or.inr (Or.inr (Or.inr (Or.inr (Or.inl ⟨rfl, rfl⟩)))))))
  by_cases hq : key = 'q'
  · subst hq
    exact Or.inr (Or.inr (Or.inr (Or.inr (Or.inr (Or.inr (Or.inr (Or.inr (Or.inl ⟨rfl, rfl⟩))))))))
  · refine Or.inr (Or.inr (Or.inr (Or.inr (Or.inr (Or.inr (Or.inr (Or.inr (Or.inr
      ⟨⟨hT, hR, hw, hs, hg, hb, hy, hh, hq⟩, ?_⟩))))))))
    simp only [keySwitch, if_neg hT, if_neg hR, if_neg hw, if_neg hs, if_neg hg, if_neg hb,
      if_neg hy, if_neg hh, if_neg hq]

/-- C5: for every state, quit flag and key, the switch changes exactly one of
the four tuning fields when the key is one of the eight tuning keys and none
otherwise; the three calibration fields never change; the quit flag becomes
true on q and is otherwise unchanged; a key that is not a tuning key (q
included) leaves the whole state unchanged. -/
theorem keySwitch_frame (key : Char) (s : BarryMooreState) (quit : Bool) :
    changedFields s (keySwitch key s quit).1 = (if key ∈ tuningKeys then 1 else 0) ∧
    (keySwitch key s quit).1.mapxL = s.mapxL ∧
    (keySwitch key s quit).1.mapxR = s.mapxR ∧
    (keySwitch key s quit).1.Q = s.Q ∧
    (keySwitch key s quit).2 = (quit || decide (key = 'q')) ∧
    (key ∈ tuningKeys ∨ (keySwitch key s quit).1 = s) := by
  rcases keySwitch_cases key s quit with h | h | h | h | h | h | h | h | h | h
  all_goals
    obtain ⟨hk, he⟩ := h
    rw [he]
    first
      | (subst hk; simp [changedFields, tuningKeys]; try omega)
      | (obtain ⟨a1, a2, a3, a4, a5, a6, a7, a8, a9⟩ := hk
         simp [changedFields, tuningKeys, a1, a2, a3, a4, a5, a6, a7, a8, a9])

/-! ### Error codes -/

theorem normalise_eq_zero (err : Int) : normalise err = DC1394_SUCCESS ↔ err = 0 := by
  unfold normalise DC1394_SUCCESS DC1394_ERROR_NUM DC1394_INVALID_ERROR_CODE
  by_cases h : err > 0 ∨ err ≤ -40
  · rw [if_pos h]
    constructor <;> intro h1 <;> omega
  · rw [if_neg h]

theorem normalise_range (err : Int) : -39 ≤ normalise err ∧ normalise err ≤ 0 := by
  unfold normalise DC1394_ERROR_NUM DC1394_INVALID_ERROR_CODE
  split_ifs with h
  · omega
  · push_neg at h
    omega

/-! ### Memory -/

theorem dmaWrite_ring (h : Heap) (w : Nat × Nat) : (h.dmaWrite w).ring = h.ring := by
  unfold Heap.dmaWrite; split_ifs <;> rfl

theorem dmaWrite_brk (h : Heap) (w : Nat × Nat) : (h.dmaWrite w).brk = h.brk := by
  unfold Heap.dmaWrite; split_ifs <;> rfl

theorem dmaWrite_bytes (h : Heap) (w : Nat × Nat) (a : Nat) (ha : h.ring ≤ a) :
    (h.dmaWrite w).bytes a = h.bytes a := by
  unfold Heap.dmaWrite
  split_ifs with hw
  · have : a ≠ w.1 := by omega
    simp [this]
  · rfl

theorem dma_frame (ws : List (Nat × Nat)) (h : Heap) :
    (h.dma ws).ring = h.ring ∧ (h.dma ws).brk = h.brk ∧
      ∀ a, h.ring ≤ a → (h.dma ws).bytes a = h.bytes a := by
  induction ws generalizing h with
  | nil => simp [Heap.dma]
  | cons w ws ih =>
    obtain ⟨i1, i2, i3⟩ := ih (h.dmaWrite w)
    simp only [Heap.dma, List.foldl_cons] at i1 i2 i3 ⊢
    refine ⟨by rw [i1, dmaWrite_ring], by rw [i2, dmaWrite_brk], fun a ha => ?_⟩
    rw [i3 a (by rw [dmaWrite_ring]; exact ha), dmaWrite_bytes h w a ha]

theorem clone_pixel (h : Heap) (m : Mat) (r c : Nat) (hr : r < m.rows) (hc : c < m.cols) :
    (m.clone h).2.pixel (m.clone h).1 r c = m.pixel h r c := by
  have hlt : r * m.cols + c < m.rows * m.cols := by
    calc r * m.cols + c < r * m.cols + m.cols := by omega
      _ = (r + 1) * m.cols := by ring
      _ ≤ m.rows * m.cols := Nat.mul_le_mul_right _ hr
  have hpos : 0 < m.cols := by omega
  have hd : (r * m.cols + c) / m.cols = r := by
    rw [Nat.add_comm, Nat.add_mul_div_right _ _ hpos, Nat.div_eq_of_lt hc, Nat.zero_add]
  have hm : (r * m.cols + c) % m.cols = c := by
    rw [Nat.add_comm, Nat.add_mul_mod_self_right, Nat.mod_eq_of_lt hc]
  simp only [Mat.clone, Mat.pixel]
  have e : h.brk + r * m.cols + c - h.brk = r * m.cols + c := by omega
  rw [if_pos ⟨by omega, by omega⟩, e, hd, hm]

theorem clone_bytes (h : Heap) (m : Mat) (a : Nat) (ha : a < h.brk) :
    (m.clone h).1.bytes a = h.bytes a := by
  simp only [Mat.clone]
  rw [if_neg (by omega)]

theorem captured_frame (h : Heap) (cap : Capture) :
    (captured h cap).1.ring = h.ring ∧
    (captured h cap).1.brk = h.brk + cap.frame.size1 * cap.frame.size0 ∧
    ∀ a, h.ring ≤ a → a < h.brk → (captured h cap).1.bytes a = h.bytes a := by
  obtain ⟨d1, d2, d3⟩ := dma_frame cap.dma h
  refine ⟨?_, ?_, fun a h1 h2 => ?_⟩
  · simpa [captured, matTmp, Mat.clone] using d1
  · simp [captured, matTmp, Mat.clone, d2]
  · have := clone_bytes (h.dma cap.dma) (matTmp cap.frame) a (by rw [d2]; exact h2)
    simp only [captured]
    rw [this, d3 a h1]

theorem captured_pixel (h : Heap) (cap : Capture) (r c : Nat)
    (hr : r < cap.frame.size1) (hc : c < cap.frame.size0) :
    (captured h cap).2.pixel (captured h cap).1 r c =
      (h.dma cap.dma).bytes (cap.frame.image + r * cap.frame.size0 + c) := by
  have := clone_pixel (h.dma cap.dma) (matTmp cap.frame) r c hr hc
  simpa [captured, matTmp] using this

theorem GetFrameFormat7_ok (cam : Cam) (h : Heap) (cap : Capture)
    (hok : cap.err = DC1394_SUCCESS) :
    GetFrameFormat7 cam h cap =
      { events :=
          [Event.dc1394_capture_dequeue cam] ++ DC1394_WRN cap.err ++
            [Event.dc1394_capture_enqueue cam cap.frame] ++ DC1394_WRN cap.enqueueErr
        result := some (captured h cap) } := by
  unfold GetFrameFormat7
  rw [if_pos hok]

theorem GetFrameFormat7_fail (cam : Cam) (h : Heap) (cap : Capture)
    (hno : cap.err ≠ DC1394_SUCCESS) :
    GetFrameFormat7 cam h cap =
      { events := [Event.dc1394_capture_dequeue cam, Event.dc1394_log_warning]
        result := none } := by
  unfold GetFrameFormat7 DC1394_WRN
  rw [if_neg hno, if_pos (by rw [Ne, normalise_eq_zero]; exact hno)]
  rfl

theorem laterCaptures_frame (cam : Cam) (caps : List Capture) (h : Heap) :
    (laterCaptures cam h caps).ring = h.ring ∧ h.brk ≤ (laterCaptures cam h caps).brk ∧
    ∀ a, h.ring ≤ a → a < h.brk → (laterCaptures cam h caps).bytes a = h.bytes a := by
  induction caps generalizing h with
  | nil => simp [laterCaptures]
  | cons cap caps ih =>
    by_cases hok : cap.err = DC1394_SUCCESS
    · obtain ⟨g1, g2, g3⟩ := captured_frame h cap
      obtain ⟨i1, i2, i3⟩ := ih (captured h cap).1
      simp only [laterCaptures, GetFrameFormat7_ok cam h cap hok]
      refine ⟨by rw [i1, g1], by omega, fun a h1 h2 => ?_⟩
      rw [i3 a (by omega) (by omega), g3 a h1 h2]
    · obtain ⟨d1, d2, d3⟩ := dma_frame cap.dma h
      simp only [laterCaptures, GetFrameFormat7_fail cam h cap hok]
      exact ⟨d1, by omega, fun a h1 _ => d3 a h1⟩

/-! ### The shape of a run -/

@[simp]
theorem Run.after_trace (es : List Event) (r : Run) :
    (Run.after es r).trace = es ++ r.trace := rfl

@[simp]
theorem Run.after_outcome (es : List Event) (r : Run) :
    (Run.after es r).outcome = r.outcome := rfl

theorem Run.after_after (a b : List Event) (r : Run) :
    Run.after a (Run.after b r) = Run.after (a ++ b) r := by
  simp [Run.after]

theorem ERR_RTN_ok (err : Int) (rest : Run) (h : err = DC1394_SUCCESS) :
    DC1394_ERR_RTN err rest = rest := by
  unfold DC1394_ERR_RTN
  rw [if_neg (by rw [not_not, normalise_eq_zero]; exact h)]

theorem ERR_CLN_RTN_ok (cfg : Config) (err : Int) (c : Cam) (rest : Run)
    (h : err = DC1394_SUCCESS) : DC1394_ERR_CLN_RTN cfg err c rest = rest := by
  unfold DC1394_ERR_CLN_RTN
  rw [if_neg (by rw [not_not, normalise_eq_zero]; exact h)]

theorem main_of_startupOk (cfg : Config) (inp : Input) (h : startupOk inp) :
    main cfg inp = Run.after (startupCalls inp) (loop cfg inp (loopStart inp) inp.cycles) := by
  obtain ⟨h1, h2, h3, h4, h5, h6, h7, h8⟩ := h
  unfold main
  rw [ERR_CLN_RTN_ok cfg _ _ _ h1, ERR_CLN_RTN_ok cfg _ _ _ h2, ERR_RTN_ok _ _ h3,
    ERR_RTN_ok _ _ h4, ERR_RTN_ok _ _ h5, ERR_RTN_ok _ _ h6, ERR_CLN_RTN_ok cfg _ _ _ h7,
    ERR_CLN_RTN_ok cfg _ _ _ h8]
  simp only [Run.after_after, startupCalls, List.append_assoc, List.cons_append,
    List.nil_append]

theorem ERR_RTN_fail (err : Int) (rest : Run) (h : err ≠ DC1394_SUCCESS) :
    DC1394_ERR_RTN err rest =
      { trace := [Event.dc1394_log_error],
        outcome := Outcome.exited (exitStatus (normalise err)) } := by
  unfold DC1394_ERR_RTN
  rw [if_pos (by rw [Ne, normalise_eq_zero]; exact h)]

theorem ERR_CLN_RTN_fail (cfg : Config) (err : Int) (c : Cam) (rest : Run)
    (h : err ≠ DC1394_SUCCESS) :
    DC1394_ERR_CLN_RTN cfg err c rest =
      { trace := [Event.dc1394_log_error, Event.cleanup_and_exit c],
        outcome :=
          match cfg.cleanupExit with
          | some v => Outcome.exited (exitStatus v)
          | none => Outcome.exited (exitStatus (normalise err)) } := by
  unfold DC1394_ERR_CLN_RTN
  rw [if_pos (by rw [Ne, normalise_eq_zero]; exact h)]

theorem aborted_after (cfg : Config) (es : List Event) (r : Run)
    (hes : ∀ e ∈ es, e.inCycle = false) (hr : r.aborted cfg) : (Run.after es r).aborted cfg := by
  obtain ⟨h1, h2⟩ := hr
  refine ⟨fun e he => ?_, h2⟩
  rcases List.mem_append.mp he with he | he
  · exact hes e he
  · exact h1 e he

theorem aborted_ERR_RTN (cfg : Config) (err : Int) (rest : Run)
    (h : err ≠ DC1394_SUCCESS) : (DC1394_ERR_RTN err rest).aborted cfg := by
  rw [ERR_RTN_fail err rest h]
  refine ⟨?_, _, err, rfl, h, Or.inl rfl⟩
  intro e he
  rw [List.mem_singleton.mp he]; rfl

theorem aborted_ERR_CLN_RTN (cfg : Config) (err : Int) (c : Cam) (rest : Run)
    (h : err ≠ DC1394_SUCCESS) : (DC1394_ERR_CLN_RTN cfg err c rest).aborted cfg := by
  rw [ERR_CLN_RTN_fail cfg err c rest h]
  refine ⟨?_, ?_⟩
  · intro e he
    simp only [List.mem_cons, List.mem_singleton, List.not_mem_nil, or_false] at he
    rcases he with rfl | rfl <;> rfl
  · cases hc : cfg.cleanupExit with
    | none => exact ⟨_, err, rfl, h, Or.inl rfl⟩
    | some v => exact ⟨_, err, rfl, h, Or.inr ⟨v, rfl, rfl⟩⟩

theorem noCycle_flag (x : Event) (b : Bool) (hx : x.inCycle = false) :
    ∀ e ∈ [x] ++ (if b then [Event.cerr] else []), e.inCycle = false := by
  have hc : Event.cerr.inCycle = false := rfl
  cases b <;> simp [hx, hc]

theorem noCycle_one (x : Event) (hx : x.inCycle = false) :
    ∀ e ∈ [x], e.inCycle = false := by
  simp [hx]

theorem noCycle_append (a b : List Event) (ha : ∀ e ∈ a, e.inCycle = false)
    (hb : ∀ e ∈ b, e.inCycle = false) : ∀ e ∈ a ++ b, e.inCycle = false := by
  intro e he
  rcases List.mem_append.mp he with he | he
  · exact ha e he
  · exact hb e he

theorem noCycle_startupCalls (inp : Input) : ∀ e ∈ startupCalls inp, e.inCycle = false := by
  unfold startupCalls
  refine noCycle_append _ _ (noCycle_append _ _ (noCycle_append _ _ (noCycle_append _ _
    (noCycle_flag _ _ (by rfl)) (noCycle_flag _ _ (by rfl))) (noCycle_flag _ _ (by rfl)))
    (noCycle_flag _ _ (by rfl))) ?_
  intro e he
  simp only [List.mem_cons, List.mem_singleton, List.not_mem_nil, or_false] at he
  rcases he with rfl | rfl | rfl | rfl | rfl | rfl | rfl | rfl | rfl | rfl <;> rfl

theorem main_of_not_startupOk (cfg : Config) (inp : Input) (h : ¬ startupOk inp) :
    (main cfg inp).aborted cfg := by
  unfold main
  refine aborted_after cfg _ _ (noCycle_flag _ _ (by rfl)) ?_
  refine aborted_after cfg _ _ (noCycle_flag _ _ (by rfl)) ?_
  refine aborted_after cfg _ _ (noCycle_flag _ _ (by rfl)) ?_
  refine aborted_after cfg _ _ (noCycle_flag _ _ (by rfl)) ?_
  refine aborted_after cfg _ _ (by simp [Event.inCycle]) ?_
  refine aborted_after cfg _ _ (noCycle_one _ (by rfl)) ?_
  by_cases h1 : inp.setup_err = DC1394_SUCCESS
  swap
  · exact aborted_ERR_CLN_RTN cfg _ _ _ h1
  rw [ERR_CLN_RTN_ok cfg _ _ _ h1]
  refine aborted_after cfg _ _ (noCycle_one _ (by rfl)) ?_
  by_cases h2 : inp.setup_err2 = DC1394_SUCCESS
  swap
  · exact aborted_ERR_CLN_RTN cfg _ _ _ h2
  rw [ERR_CLN_RTN_ok cfg _ _ _ h2]
  refine aborted_after cfg _ _ (noCycle_one _ (by rfl)) ?_
  by_cases h3 : inp.power_err = DC1394_SUCCESS
  swap
  · exact aborted_ERR_RTN cfg _ _ h3
  rw [ERR_RTN_ok _ _ h3]
  refine aborted_after cfg _ _ (noCycle_one _ (by rfl)) ?_
  by_cases h4 : inp.mode_err = DC1394_SUCCESS
  swap
  · exact aborted_ERR_RTN cfg _ _ h4
  rw [ERR_RTN_ok _ _ h4]
  refine aborted_after cfg _ _ (noCycle_one _ (by rfl)) ?_
  by_cases h5 : inp.power_err2 = DC1394_SUCCESS
  swap
  · exact aborted_ERR_RTN cfg _ _ h5
  rw [ERR_RTN_ok _ _ h5]
  refine aborted_after cfg _ _ (noCycle_one _ (by rfl)) ?_
  by_cases h6 : inp.mode_err2 = DC1394_SUCCESS
  swap
  · exact aborted_ERR_RTN cfg _ _ h6
  rw [ERR_RTN_ok _ _ h6]
  refine aborted_after cfg _ _ (noCycle_one _ (by rfl)) ?_
  by_cases h7 : inp.on_err = DC1394_SUCCESS
  swap
  · exact aborted_ERR_CLN_RTN cfg _ _ _ h7
  rw [ERR_CLN_RTN_ok cfg _ _ _ h7]
  refine aborted_after cfg _ _ (noCycle_one _ (by rfl)) ?_
  by_cases h8 : inp.on_err2 = DC1394_SUCCESS
  swap
  · exact aborted_ERR_CLN_RTN cfg _ _ _ h8
  exact absurd ⟨h1, h2, h3, h4, h5, h6, h7, h8⟩ h

/-! ### Frames -/

theorem captured_mat (h : Heap) (cap : Capture) :
    (captured h cap).2 =
      { rows := cap.frame.size1, cols := cap.frame.size0, step := cap.frame.size0,
        data := h.brk } := by
  simp [captured, matTmp, Mat.clone, (dma_frame cap.dma h).2.1]

theorem pixel_stable (h k : Heap) (cap : Capture) (r c : Nat)
    (hwf : h.ring ≤ h.brk)
    (hk : ∀ a, h.ring ≤ a → a < h.brk + cap.frame.size1 * cap.frame.size0 →
      k.bytes a = (captured h cap).1.bytes a)
    (hr : r < cap.frame.size1) (hc : c < cap.frame.size0) :
    (captured h cap).2.pixel k r c =
      (h.dma cap.dma).bytes (cap.frame.image + r * cap.frame.size0 + c) := by
  rw [← captured_pixel h cap r c hr hc]
  have hlt : r * cap.frame.size0 + c < cap.frame.size1 * cap.frame.size0 := by
    calc r * cap.frame.size0 + c < r * cap.frame.size0 + cap.frame.size0 := by omega
      _ = (r + 1) * cap.frame.size0 := by ring
      _ ≤ cap.frame.size1 * cap.frame.size0 := Nat.mul_le_mul_right _ hr
  simp only [Mat.pixel, captured_mat]
  exact hk _ (by omega) (by omega)

theorem read_stable (h k : Heap) (cap : Capture) (hwf : h.ring ≤ h.brk)
    (hk : ∀ a, h.ring ≤ a → a < h.brk + cap.frame.size1 * cap.frame.size0 →
      k.bytes a = (captured h cap).1.bytes a) :
    (captured h cap).2.read k = frameAtDequeue h cap := by
  unfold Mat.read frameAtDequeue
  rw [captured_mat]
  refine List.map_congr_left fun r hr => List.map_congr_left fun c hc => ?_
  have := pixel_stable h k cap r c hwf hk (List.mem_range.mp hr) (List.mem_range.mp hc)
  rw [captured_mat] at this
  exact this

theorem cycle_reads (st : LoopState) (c : Cycle) (hwf : st.heap.ring ≤ st.heap.brk) :
    (captured st.heap c.left).2.read (captured (captured st.heap c.left).1 c.right).1 =
      (cycleFrames st c).1 ∧
    (captured (captured st.heap c.left).1 c.right).2.read
      (captured (captured st.heap c.left).1 c.right).1 = (cycleFrames st c).2 := by
  obtain ⟨l1, l2, l3⟩ := captured_frame st.heap c.left
  obtain ⟨r1, r2, r3⟩ := captured_frame (captured st.heap c.left).1 c.right
  constructor
  · exact read_stable _ _ _ hwf fun a h1 h2 => r3 a (by omega) (by omega)
  · exact read_stable _ _ _ (by omega) fun a _ _ => rfl

theorem captured_heap_wf (st : LoopState) (c : Cycle) (hwf : st.heap.ring ≤ st.heap.brk) :
    (captured (captured st.heap c.left).1 c.right).1.ring ≤
      (captured (captured st.heap c.left).1 c.right).1.brk := by
  obtain ⟨l1, l2, l3⟩ := captured_frame st.heap c.left
  obtain ⟨r1, r2, r3⟩ := captured_frame (captured st.heap c.left).1 c.right
  omega
/-! ### Observations -/

theorem Lcmgl.run_append (l : Lcmgl) (a b : List Event) :
    Lcmgl.run l (a ++ b) = Lcmgl.run (Lcmgl.run l a) b := by
  simp [Lcmgl.run, List.foldl_append]

theorem Lcmgl.run_cons (l : Lcmgl) (e : Event) (tr : List Event) :
    Lcmgl.run l (e :: tr) = Lcmgl.run (l.step e) tr := rfl

theorem matcherCalls_append (a b : List Event) :
    matcherCalls (a ++ b) = matcherCalls a ++ matcherCalls b := by
  induction a with
  | nil => rfl
  | cons e a ih => cases e <;> simp [matcherCalls, ih]

theorem enqueued_append (a b : List Event) :
    enqueued (a ++ b) = enqueued a ++ enqueued b := by
  induction a with
  | nil => rfl
  | cons e a ih => cases e <;> simp [enqueued, ih]

theorem silent_of_noCycle (tr : List Event) (h : ∀ e ∈ tr, e.inCycle = false) (l : Lcmgl) :
    Lcmgl.run l tr = l ∧ matcherCalls tr = [] ∧ enqueued tr = [] := by
  induction tr with
  | nil => exact ⟨rfl, rfl, rfl⟩
  | cons e tr ih =>
    have he := h e (List.mem_cons_self _ _)
    obtain ⟨i1, i2, i3⟩ := ih fun x hx => h x (List.mem_cons_of_mem _ hx)
    cases e <;> first
      | (exact ⟨by rw [Lcmgl.run_cons]; exact i1, i2, i3⟩)
      | (simp [Event.inCycle] at he)

theorem WRN_cases (err : Int) :
    DC1394_WRN err = [] ∨ DC1394_WRN err = [Event.dc1394_log_warning] := by
  unfold DC1394_WRN
  split_ifs
  · exact Or.inr rfl
  · exact Or.inl rfl

theorem WRN_silent (err : Int) (l : Lcmgl) :
    Lcmgl.run l (DC1394_WRN err) = l ∧ matcherCalls (DC1394_WRN err) = [] ∧
      enqueued (DC1394_WRN err) = [] ∧ ∀ e ∈ DC1394_WRN err, e.inCycle = true := by
  rcases WRN_cases err with h | h <;> rw [h] <;> simp [Lcmgl.run, Lcmgl.step, matcherCalls,
    enqueued, Event.inCycle]

theorem captureEvents_facts (cam : Cam) (cap : Capture) (l : Lcmgl) :
    Lcmgl.run l ([Event.dc1394_capture_dequeue cam] ++ DC1394_WRN cap.err ++
      [Event.dc1394_capture_enqueue cam cap.frame] ++ DC1394_WRN cap.enqueueErr) = l ∧
    matcherCalls ([Event.dc1394_capture_dequeue cam] ++ DC1394_WRN cap.err ++
      [Event.dc1394_capture_enqueue cam cap.frame] ++ DC1394_WRN cap.enqueueErr) = [] ∧
    enqueued ([Event.dc1394_capture_dequeue cam] ++ DC1394_WRN cap.err ++
      [Event.dc1394_capture_enqueue cam cap.frame] ++ DC1394_WRN cap.enqueueErr) =
      [(cam, cap.frame)] ∧
    ∀ e ∈ [Event.dc1394_capture_dequeue cam] ++ DC1394_WRN cap.err ++
      [Event.dc1394_capture_enqueue cam cap.frame] ++ DC1394_WRN cap.enqueueErr,
      e.inCycle = true := by
  obtain ⟨a1, a2, a3, a4⟩ := WRN_silent cap.err l
  obtain ⟨b1, b2, b3, b4⟩ := WRN_silent cap.enqueueErr l
  refine ⟨?_, ?_, ?_, ?_⟩
  · simp only [Lcmgl.run_append, List.append_assoc]
    rw [show Lcmgl.run l [Event.dc1394_capture_dequeue cam] = l from rfl, a1,
      show Lcmgl.run l [Event.dc1394_capture_enqueue cam cap.frame] = l from rfl, b1]
  · simp [matcherCalls_append, a2, b2, matcherCalls]
  · simp [enqueued_append, a3, b3, enqueued]
  · intro e he
    simp only [List.mem_append, List.mem_singleton] at he
    rcases he with ((he | he) | he) | he
    · rw [he]; rfl
    · exact a4 e he
    · rw [he]; rfl
    · exact b4 e he

theorem run_vertices (ps : List Point3f) (buf : List (Nat × Nat × Nat))
    (sent : List (List (Nat × Nat × Nat))) :
    Lcmgl.run { buffer := buf, sent := sent }
        (ps.map fun p => Event.bot_lcmgl_vertex3f p.z p.x (fneg p.y)) =
      { buffer := buf ++ ps.map vertexOf, sent := sent } := by
  induction ps generalizing buf with
  | nil => simp [Lcmgl.run]
  | cons p ps ih =>
    simp only [List.map_cons, Lcmgl.run_cons, Lcmgl.step]
    rw [ih]
    simp [vertexOf]

theorem matcherCalls_vertices (ps : List Point3f) :
    matcherCalls (ps.map fun p => Event.bot_lcmgl_vertex3f p.z p.x (fneg p.y)) = [] := by
  induction ps with
  | nil => rfl
  | cons p ps ih => simpa [matcherCalls] using ih

/-- A cycle whose two dequeues succeed is carried out to its end. -/
theorem cycle_ok (cfg : Config) (start : timeval) (st : LoopState) (c : Cycle)
    (h1 : c.left.err = DC1394_SUCCESS) (h2 : c.right.err = DC1394_SUCCESS) :
    cycle cfg start st c =
      ([Event.dc1394_capture_dequeue Cam.camera] ++ DC1394_WRN c.left.err ++
          [Event.dc1394_capture_enqueue Cam.camera c.left.frame] ++
          DC1394_WRN c.left.enqueueErr ++
        ([Event.dc1394_capture_dequeue Cam.camera2] ++ DC1394_WRN c.right.err ++
          [Event.dc1394_capture_enqueue Cam.camera2 c.right.frame] ++
          DC1394_WRN c.right.enqueueErr) ++
        [Event.StereoBarryMoore ((captured st.heap c.left).2.read (captured (captured st.heap c.left).1 c.right).1)
          ((captured (captured st.heap c.left).1 c.right).2.read (captured (captured st.heap c.left).1 c.right).1) st.state] ++
        [Event.bot_lcmgl_push_matrix, Event.bot_lcmgl_point_size, Event.bot_lcmgl_begin] ++
        ((cfg.StereoBarryMoore ((captured st.heap c.left).2.read (captured (captured st.heap c.left).1 c.right).1)
          ((captured (captured st.heap c.left).1 c.right).2.read (captured (captured st.heap c.left).1 c.right).1) st.state).1.map
            fun p => Event.bot_lcmgl_vertex3f p.z p.x (fneg p.y)) ++
        [Event.bot_lcmgl_end, Event.bot_lcmgl_pop_matrix, Event.bot_lcmgl_switch_buffer] ++
        [Event.printf (st.numFrames + 1) (elapsed start c.now)],
       some
        { heap := (captured (captured st.heap c.left).1 c.right).1,
          state :=
            (if cfg.SHOW_DISPLAY then keySwitch c.key st.state st.quit
              else (st.state, st.quit)).1,
          quit :=
            (if cfg.SHOW_DISPLAY then keySwitch c.key st.state st.quit
              else (st.state, st.quit)).2,
          numFrames := st.numFrames + 1 }) := by
  simp only [cycle, GetFrameFormat7_ok _ _ _ h1, GetFrameFormat7_ok _ _ _ h2]

/-- A cycle whose left dequeue fails ends at line 529 of the first call of
`GetFrameFormat7`. -/
theorem cycle_fail_left (cfg : Config) (start : timeval) (st : LoopState) (c : Cycle)
    (h1 : c.left.err ≠ DC1394_SUCCESS) :
    cycle cfg start st c =
      ([Event.dc1394_capture_dequeue Cam.camera, Event.dc1394_log_warning], none) := by
  simp only [cycle, GetFrameFormat7_fail _ _ _ h1]

/-- A cycle whose right dequeue fails ends at line 529 of the second call of
`GetFrameFormat7`. -/
theorem cycle_fail_right (cfg : Config) (start : timeval) (st : LoopState) (c : Cycle)
    (h1 : c.left.err = DC1394_SUCCESS) (h2 : c.right.err ≠ DC1394_SUCCESS) :
    cycle cfg start st c =
      ([Event.dc1394_capture_dequeue Cam.camera] ++ DC1394_WRN c.left.err ++
          [Event.dc1394_capture_enqueue Cam.camera c.left.frame] ++
          DC1394_WRN c.left.enqueueErr ++
        [Event.dc1394_capture_dequeue Cam.camera2, Event.dc1394_log_warning], none) := by
  simp only [cycle, GetFrameFormat7_ok _ _ _ h1, GetFrameFormat7_fail _ _ _ h2]

theorem delivers_iff (c : Cycle) :
    c.delivers = true ↔ c.left.err = DC1394_SUCCESS ∧ c.right.err = DC1394_SUCCESS := by
  simp [Cycle.delivers]

/-- A cycle with a failing dequeue is not carried out to its end; it calls no
matcher, publishes nothing and prints no frame rate. -/
theorem cycle_fail (cfg : Config) (start : timeval) (st : LoopState) (c : Cycle)
    (h : c.delivers = false) :
    (cycle cfg start st c).2 = none ∧
    (∀ e ∈ (cycle cfg start st c).1, e.inCycle = true) ∧
    matcherCalls (cycle cfg start st c).1 = [] ∧
    (∀ l, Lcmgl.run l (cycle cfg start st c).1 = l) ∧
    (∀ n e, Event.printf n e ∉ (cycle cfg start st c).1) ∧
    Event.dc1394_log_warning ∈ (cycle cfg start st c).1 := by
  by_cases h1 : c.left.err = DC1394_SUCCESS
  · have h2 : c.right.err ≠ DC1394_SUCCESS := fun h2 => by
      rw [(delivers_iff c).mpr ⟨h1, h2⟩] at h
      cases h
    rw [cycle_fail_right cfg start st c h1 h2]
    obtain ⟨a1, a2, a3, a4⟩ :=
      captureEvents_facts Cam.camera c.left { buffer := [], sent := [] }
    refine ⟨rfl, ?_, ?_, fun l => ?_, fun n e hm => ?_, by simp⟩
    · intro e he
      rcases List.mem_append.mp he with he | he
      · exact a4 e he
      · simp only [List.mem_cons, List.mem_singleton, List.not_mem_nil, or_false] at he
        rcases he with rfl | rfl <;> rfl
    · rw [matcherCalls_append, a2]
      rfl
    · rw [Lcmgl.run_append, (captureEvents_facts Cam.camera c.left l).1]
      rfl
    · rcases List.mem_append.mp hm with hm | hm
      · simp only [List.mem_append, List.mem_singleton] at hm
        rcases hm with ((hm | hm) | hm) | hm
        · cases hm
        · rcases WRN_cases c.left.err with w | w <;> rw [w] at hm <;> simp at hm
        · cases hm
        · rcases WRN_cases c.left.enqueueErr with w | w <;> rw [w] at hm <;> simp at hm
      · simp at hm
  · rw [cycle_fail_left cfg start st c h1]
    refine ⟨rfl, ?_, rfl, fun l => rfl, fun n e hm => ?_, by simp⟩
    · intro e he
      simp only [List.mem_cons, List.mem_singleton, List.not_mem_nil, or_false] at he
      rcases he with rfl | rfl <;> rfl
    · simp at hm

theorem keySwitch_quit (key : Char) (s : BarryMooreState) (quit : Bool) :
    (keySwitch key s quit).2 = (quit || decide (key = 'q')) := by
  rcases keySwitch_cases key s quit with h | h | h | h | h | h | h | h | h | h
  all_goals
    obtain ⟨hk, he⟩ := h
    rw [he]
    first
      | (subst hk; simp)
      | (obtain ⟨a1, a2, a3, a4, a5, a6, a7, a8, a9⟩ := hk; simp [a9])

/-- What a cycle carried out to its end leaves in the variables of `main`. -/
theorem cycle_next (cfg : Config) (start : timeval) (st next : LoopState) (c : Cycle)
    (h : (cycle cfg start st c).2 = some next) :
    c.delivers = true ∧
    next.heap = (captured (captured st.heap c.left).1 c.right).1 ∧
    next.state = (if cfg.SHOW_DISPLAY then (keySwitch c.key st.state st.quit).1 else st.state) ∧
    next.quit = (st.quit || (cfg.SHOW_DISPLAY && decide (c.key = 'q'))) ∧
    next.numFrames = st.numFrames + 1 := by
  cases hd : c.delivers
  · rw [(cycle_fail cfg start st c hd).1] at h
    cases h
  · obtain ⟨h1, h2⟩ := (delivers_iff c).mp hd
    rw [cycle_ok cfg start st c h1 h2] at h
    injection h with h
    subst h
    refine ⟨rfl, rfl, ?_, ?_, rfl⟩
    · cases hs : cfg.SHOW_DISPLAY <;> simp
    · cases hs : cfg.SHOW_DISPLAY
      · simp
      · simp [keySwitch_quit]

theorem cycle_some (cfg : Config) (start : timeval) (st : LoopState) (c : Cycle)
    (h : c.delivers = true) : ∃ next, (cycle cfg start st c).2 = some next := by
  obtain ⟨h1, h2⟩ := (delivers_iff c).mp h
  rw [cycle_ok cfg start st c h1 h2]
  exact ⟨_, rfl⟩

theorem cycle_observed (cfg : Config) (start : timeval) (st : LoopState) (c : Cycle)
    (hd : c.delivers = true)
    (hwf : st.heap.ring ≤ st.heap.brk) (sent : List (List (Nat × Nat × Nat))) :
    matcherCalls (cycle cfg start st c).1 = [cycleCall (st, c)] ∧
    Lcmgl.run { buffer := [], sent := sent } (cycle cfg start st c).1 =
      { buffer := [], sent := sent ++ [cycleMessage cfg (st, c)] } := by
  obtain ⟨h1, h2⟩ := (delivers_iff c).mp hd
  obtain ⟨e1, e2⟩ := cycle_reads st c hwf
  obtain ⟨l1, l2, -, -⟩ :=
    captureEvents_facts Cam.camera c.left { buffer := [], sent := sent }
  obtain ⟨r1, r2, -, -⟩ :=
    captureEvents_facts Cam.camera2 c.right { buffer := [], sent := sent }
  rw [cycle_ok cfg start st c h1 h2, e1, e2]
  constructor
  · simp only [matcherCalls_append, l2, r2, matcherCalls_vertices, List.nil_append,
      List.append_nil]
    rfl
  · simp only [Lcmgl.run_append, l1, r1]
    rw [show Lcmgl.run { buffer := [], sent := sent }
        [Event.StereoBarryMoore (cycleFrames st c).1 (cycleFrames st c).2 st.state] =
        { buffer := [], sent := sent } from rfl,
      show Lcmgl.run { buffer := [], sent := sent }
        [Event.bot_lcmgl_push_matrix, Event.bot_lcmgl_point_size, Event.bot_lcmgl_begin] =
        { buffer := [], sent := sent } from rfl,
      run_vertices]
    simp only [List.nil_append]
    rfl

/-! ### The loop -/

theorem loop_eq (cfg : Config) (inp : Input) (cycles : List Cycle) (st : LoopState) :
    loop cfg inp st cycles =
      Run.after (loopBody cfg inp.start st cycles) (afterLoop cfg inp st cycles) := by
  induction cycles generalizing st with
  | nil =>
    cases hq : st.quit <;> simp [loop, loopBody, afterLoop, hq, Run.after]
  | cons c cs ih =>
    cases hq : st.quit
    · cases hc : (cycle cfg inp.start st c).2 with
      | none =>
        simp only [loop, loopBody, afterLoop, hq, hc, Bool.false_eq_true, if_false, Run.after,
          List.append_nil]
      | some next =>
        simp only [loop, loopBody, afterLoop, hq, hc, Bool.false_eq_true, if_false]
        rw [ih, Run.after_after]
    · simp [loop, loopBody, afterLoop, hq, Run.after]

theorem afterLoop_cases (cfg : Config) (inp : Input) (cycles : List Cycle) (st : LoopState) :
    (quits cfg st cycles = true ∧ afterLoop cfg inp st cycles = teardown cfg inp) ∨
    (quits cfg st cycles = false ∧
      (afterLoop cfg inp st cycles = { trace := [], outcome := Outcome.running } ∨
        afterLoop cfg inp st cycles = { trace := [], outcome := Outcome.undefined })) := by
  induction cycles generalizing st with
  | nil =>
    cases hq : st.quit <;> simp [quits, quitsFrom, afterLoop, hq]
  | cons c cs ih =>
    cases hq : st.quit
    · cases hc : (cycle cfg inp.start st c).2 with
      | none =>
        have hd : c.delivers = false := by
          cases hd : c.delivers
          · rfl
          · obtain ⟨next, hn⟩ := cycle_some cfg inp.start st c hd
            rw [hn] at hc
            cases hc
        refine Or.inr ⟨by simp [quits, quitsFrom, hq, hd], Or.inr ?_⟩
        simp only [afterLoop, hq, hc, Bool.false_eq_true, if_false]
      | some next =>
        obtain ⟨n1, -, -, n4, -⟩ := cycle_next cfg inp.start st next c hc
        have hqn : quits cfg st (c :: cs) = quits cfg next cs := by
          simp [quits, quitsFrom, hq, n1, n4]
        simp only [afterLoop, hq, hc, Bool.false_eq_true, if_false, hqn]
        exact ih next
    · exact Or.inl ⟨by simp [quits, quitsFrom, hq], by simp [afterLoop, hq]⟩

theorem teardown_ok (cfg : Config) (inp : Input) (h1 : inp.off_err = DC1394_SUCCESS)
    (h2 : inp.off_err2 = DC1394_SUCCESS) :
    teardown cfg inp =
      { trace :=
          [ Event.dc1394_video_set_transmission Cam.camera false,
            Event.dc1394_video_set_transmission Cam.camera2 false,
            Event.dc1394_video_set_transmission Cam.camera false,
            Event.dc1394_capture_stop Cam.camera,
            Event.dc1394_camera_free Cam.camera,
            Event.dc1394_video_set_transmission Cam.camera2 false,
            Event.dc1394_capture_stop Cam.camera2,
            Event.dc1394_camera_free Cam.camera2,
            Event.dc1394_free Ctx.d,
            Event.dc1394_free Ctx.d2 ],
        outcome := Outcome.exited 0 } := by
  unfold teardown
  rw [ERR_CLN_RTN_ok cfg _ _ _ h1, ERR_CLN_RTN_ok cfg _ _ _ h2]
  rfl

theorem teardown_fail (cfg : Config) (inp : Input)
    (h : ¬ (inp.off_err = DC1394_SUCCESS ∧ inp.off_err2 = DC1394_SUCCESS)) :
    (teardown cfg inp).aborted cfg := by
  unfold teardown
  refine aborted_after cfg _ _ (noCycle_one _ (by rfl)) ?_
  by_cases h1 : inp.off_err = DC1394_SUCCESS
  swap
  · exact aborted_ERR_CLN_RTN cfg _ _ _ h1
  rw [ERR_CLN_RTN_ok cfg _ _ _ h1]
  refine aborted_after cfg _ _ (noCycle_one _ (by rfl)) ?_
  by_cases h2 : inp.off_err2 = DC1394_SUCCESS
  swap
  · exact aborted_ERR_CLN_RTN cfg _ _ _ h2
  exact absurd ⟨h1, h2⟩ h

theorem teardown_noCycle (cfg : Config) (inp : Input) :
    ∀ e ∈ (teardown cfg inp).trace, e.inCycle = false := by
  by_cases h : inp.off_err = DC1394_SUCCESS ∧ inp.off_err2 = DC1394_SUCCESS
  · rw [teardown_ok cfg inp h.1 h.2]
    intro e he
    simp only [List.mem_cons, List.mem_singleton, List.not_mem_nil, or_false] at he
    rcases he with rfl | rfl | rfl | rfl | rfl | rfl | rfl | rfl | rfl | rfl <;> rfl
  · exact (teardown_fail cfg inp h).1

theorem afterLoop_noCycle (cfg : Config) (inp : Input) (cycles : List Cycle)
    (st : LoopState) : ∀ e ∈ (afterLoop cfg inp st cycles).trace, e.inCycle = false := by
  rcases afterLoop_cases cfg inp cycles st with ⟨-, h⟩ | ⟨-, h | h⟩ <;> rw [h]
  · exact teardown_noCycle cfg inp
  · simp
  · simp

theorem cycle_inCycle (cfg : Config) (start : timeval) (st : LoopState) (c : Cycle) :
    ∀ e ∈ (cycle cfg start st c).1, e.inCycle = true := by
  cases hd : c.delivers
  · exact (cycle_fail cfg start st c hd).2.1
  · obtain ⟨h1, h2⟩ := (delivers_iff c).mp hd
    obtain ⟨-, -, -, l4⟩ :=
      captureEvents_facts Cam.camera c.left { buffer := [], sent := [] }
    obtain ⟨-, -, -, r4⟩ :=
      captureEvents_facts Cam.camera2 c.right { buffer := [], sent := [] }
    intro e he
    rw [cycle_ok cfg start st c h1 h2] at he
    rcases List.mem_append.mp he with he | he
    · rcases List.mem_append.mp he with he | he
      · rcases List.mem_append.mp he with he | he
        · rcases List.mem_append.mp he with he | he
          · rcases List.mem_append.mp he with he | he
            · rcases List.mem_append.mp he with he | he
              · exact l4 e he
              · exact r4 e he
            · rw [List.mem_singleton.mp he]; rfl
          · simp only [List.mem_cons, List.mem_singleton, List.not_mem_nil, or_false] at he
            rcases he with rfl | rfl | rfl <;> rfl
        · obtain ⟨p, -, rfl⟩ := List.mem_map.mp he; rfl
      · simp only [List.mem_cons, List.mem_singleton, List.not_mem_nil, or_false] at he
        rcases he with rfl | rfl | rfl <;> rfl
    · rw [List.mem_singleton.mp he]; rfl

theorem captureEvents_noPrintf (cam : Cam) (cap : Capture) (n e : Int) :
    Event.printf n e ∉ [Event.dc1394_capture_dequeue cam] ++ DC1394_WRN cap.err ++
      [Event.dc1394_capture_enqueue cam cap.frame] ++ DC1394_WRN cap.enqueueErr := by
  intro hm
  simp only [List.mem_append, List.mem_singleton] at hm
  rcases hm with ((hm | hm) | hm) | hm
  · cases hm
  · rcases WRN_cases cap.err with w | w <;> rw [w] at hm <;> simp at hm
  · cases hm
  · rcases WRN_cases cap.enqueueErr with w | w <;> rw [w] at hm <;> simp at hm

theorem cycle_printf (cfg : Config) (start : timeval) (st : LoopState) (c : Cycle)
    (n e : Int) (h : Event.printf n e ∈ (cycle cfg start st c).1) :
    n = st.numFrames + 1 ∧ e = elapsed start c.now := by
  cases hd : c.delivers
  · exact absurd h ((cycle_fail cfg start st c hd).2.2.2.2.1 n e)
  · obtain ⟨h1, h2⟩ := (delivers_iff c).mp hd
    rw [cycle_ok cfg start st c h1 h2] at h
    rcases List.mem_append.mp h with h | h
    · rcases List.mem_append.mp h with h | h
      · rcases List.mem_append.mp h with h | h
        · rcases List.mem_append.mp h with h | h
          · rcases List.mem_append.mp h with h | h
            · rcases List.mem_append.mp h with h | h
              · exact absurd h (captureEvents_noPrintf _ _ n e)
              · exact absurd h (captureEvents_noPrintf _ _ n e)
            · cases List.mem_singleton.mp h
          · simp only [List.mem_cons, List.mem_singleton, List.not_mem_nil, or_false] at h
            rcases h with h | h | h <;> cases h
        · obtain ⟨p, -, hp⟩ := List.mem_map.mp h; cases hp
      · simp only [List.mem_cons, List.mem_singleton, List.not_mem_nil, or_false] at h
        rcases h with h | h | h <;> cases h
    · injection List.mem_singleton.mp h with h1 h2
      exact ⟨h1, h2⟩

theorem loopBody_observed (cfg : Config) (start : timeval) (cycles : List Cycle)
    (st : LoopState) (hwf : st.heap.ring ≤ st.heap.brk)
    (sent : List (List (Nat × Nat × Nat))) :
    matcherCalls (loopBody cfg start st cycles) =
      (cyclesRun cfg start st cycles).map cycleCall ∧
    Lcmgl.run { buffer := [], sent := sent } (loopBody cfg start st cycles) =
      { buffer := [],
        sent := sent ++ (cyclesRun cfg start st cycles).map (cycleMessage cfg) } := by
  induction cycles generalizing st sent with
  | nil => simp [loopBody, cyclesRun, matcherCalls, Lcmgl.run]
  | cons c cs ih =>
    cases hq : st.quit
    · cases hc : (cycle cfg start st c).2 with
      | none =>
        have hd : c.delivers = false := by
          cases hd : c.delivers
          · rfl
          · obtain ⟨next, hn⟩ := cycle_some cfg start st c hd
            rw [hn] at hc
            cases hc
        obtain ⟨-, -, f3, f4, -, -⟩ := cycle_fail cfg start st c hd
        simp only [loopBody, cyclesRun, hq, hc, Bool.false_eq_true, if_false, List.append_nil,
          f3, f4, List.map_nil, and_self]
      | some next =>
        obtain ⟨n1, n2, -, -, -⟩ := cycle_next cfg start st next c hc
        obtain ⟨c1, c2⟩ := cycle_observed cfg start st c n1 hwf sent
        have hwf2 : next.heap.ring ≤ next.heap.brk := by
          rw [n2]; exact captured_heap_wf st c hwf
        obtain ⟨i1, i2⟩ := ih next hwf2 (sent ++ [cycleMessage cfg (st, c)])
        simp only [loopBody, cyclesRun, hq, hc, Bool.false_eq_true, if_false,
          matcherCalls_append, Lcmgl.run_append, c1, c2, i1, i2, List.map_cons,
          List.append_assoc, List.cons_append, List.nil_append, and_self]
    · simp [loopBody, cyclesRun, hq, matcherCalls, Lcmgl.run]

theorem loopBody_inCycle (cfg : Config) (start : timeval) (cycles : List Cycle)
    (st : LoopState) : ∀ e ∈ loopBody cfg start st cycles, e.inCycle = true := by
  induction cycles generalizing st with
  | nil => simp [loopBody]
  | cons c cs ih =>
    cases hq : st.quit
    · intro e he
      simp only [loopBody, hq, Bool.false_eq_true, if_false, List.mem_append] at he
      rcases he with he | he
      · exact cycle_inCycle cfg start st c e he
      · cases hc : (cycle cfg start st c).2 with
        | none => rw [hc] at he; simp at he
        | some next => rw [hc] at he; exact ih _ e he
    · simp [loopBody, hq]

theorem loopBody_printf (cfg : Config) (start : timeval) (cycles : List Cycle)
    (st : LoopState) (hn : 0 ≤ st.numFrames) (n e : Int)
    (h : Event.printf n e ∈ loopBody cfg start st cycles) :
    1 ≤ n ∧ ∃ c ∈ cycles, e = elapsed start c.now := by
  induction cycles generalizing st with
  | nil => simp [loopBody] at h
  | cons c cs ih =>
    cases hq : st.quit
    · simp only [loopBody, hq, Bool.false_eq_true, if_false, List.mem_append] at h
      rcases h with h | h
      · obtain ⟨h1, h2⟩ := cycle_printf cfg start st c n e h
        exact ⟨by omega, c, List.mem_cons_self _ _, h2⟩
      · cases hc : (cycle cfg start st c).2 with
        | none => rw [hc] at h; simp at h
        | some next =>
          rw [hc] at h
          obtain ⟨-, -, -, -, n5⟩ := cycle_next cfg start st next c hc
          obtain ⟨i1, c2, i2, i3⟩ := ih next (by omega) h
          exact ⟨i1, c2, List.mem_cons_of_mem _ i2, i3⟩
    · simp [loopBody, hq] at h

/-- The parameters after the loop are the switch applied to the keys of the
cycles carried out to their end, when the program is built with
`SHOW_DISPLAY`, and the parameters on entry otherwise. -/
theorem loopState_state (cfg : Config) (start : timeval) (cycles : List Cycle)
    (st : LoopState) :
    (loopState cfg start st cycles).state =
      if cfg.SHOW_DISPLAY then
        applyKeys ((cyclesRun cfg start st cycles).map fun p => p.2.key) st.state
      else st.state := by
  induction cycles generalizing st with
  | nil => simp [loopState, cyclesRun, applyKeys]
  | cons c cs ih =>
    cases hq : st.quit
    · cases hc : (cycle cfg start st c).2 with
      | none => simp [loopState, cyclesRun, hq, hc, applyKeys]
      | some next =>
        obtain ⟨-, -, n3, -, -⟩ := cycle_next cfg start st next c hc
        simp only [loopState, cyclesRun, hq, hc, Bool.false_eq_true, if_false, List.map_cons,
          applyKeys]
        rw [ih, n3]
        cases hs : cfg.SHOW_DISPLAY
        · simp
        · simp only [if_true, hq]
    · simp [loopState, cyclesRun, hq, applyKeys]

/-! ### The whole run -/

theorem flag_isStartup (x : Event) (b : Bool) (hx : x.isStartup = true) :
    ∀ e ∈ [x] ++ (if b then [Event.cerr] else []), e.isStartup = true := by
  have hc : Event.cerr.isStartup = true := rfl
  cases b <;> simp [hx, hc]

theorem startupCalls_isStartup (inp : Input) :
    ∀ e ∈ startupCalls inp, e.isStartup = true := by
  intro e he
  unfold startupCalls at he
  rcases List.mem_append.mp he with he | he
  · rcases List.mem_append.mp he with he | he
    · rcases List.mem_append.mp he with he | he
      · rcases List.mem_append.mp he with he | he
        · exact flag_isStartup _ _ (by rfl) e he
        · exact flag_isStartup _ _ (by rfl) e he
      · exact flag_isStartup _ _ (by rfl) e he
    · exact flag_isStartup _ _ (by rfl) e he
  · simp only [List.mem_cons, List.mem_singleton, List.not_mem_nil, or_false] at he
    rcases he with rfl | rfl | rfl | rfl | rfl | rfl | rfl | rfl | rfl | rfl <;> rfl

theorem startupCalls_noFree (inp : Input) :
    (∀ c, cameraFrees c (startupCalls inp) = 0) ∧ ∀ c, contextFrees c (startupCalls inp) = 0 := by
  constructor <;> intro c <;> refine List.count_eq_zero.mpr fun hm => ?_ <;>
    exact absurd (startupCalls_isStartup inp _ hm) (by simp [Event.isStartup])

theorem inCycle_noFree (tr : List Event) (h : ∀ e ∈ tr, e.inCycle = true) :
    (∀ c, cameraFrees c tr = 0) ∧ ∀ c, contextFrees c tr = 0 := by
  constructor <;> intro c <;> refine List.count_eq_zero.mpr fun hm => ?_ <;>
    exact absurd (h _ hm) (by simp [Event.inCycle])

theorem main_trace_ok (cfg : Config) (inp : Input) (h : startupOk inp) :
    (main cfg inp).trace =
      startupCalls inp ++ (loopBody cfg inp.start (loopStart inp) inp.cycles ++
        (afterLoop cfg inp (loopStart inp) inp.cycles).trace) := by
  rw [main_of_startupOk cfg inp h, loop_eq]
  rfl

theorem main_outcome_ok (cfg : Config) (inp : Input) (h : startupOk inp) :
    (main cfg inp).outcome = (afterLoop cfg inp (loopStart inp) inp.cycles).outcome := by
  rw [main_of_startupOk cfg inp h, loop_eq]
  rfl

theorem main_mem_inCycle (cfg : Config) (inp : Input) (e : Event)
    (he : e ∈ (main cfg inp).trace) (hc : e.inCycle = true) :
    startupOk inp ∧ e ∈ loopBody cfg inp.start (loopStart inp) inp.cycles := by
  by_cases h : startupOk inp
  · refine ⟨h, ?_⟩
    rw [main_trace_ok cfg inp h] at he
    rcases List.mem_append.mp he with he | he
    · rw [noCycle_startupCalls inp e he] at hc; cases hc
    · rcases List.mem_append.mp he with he | he
      · exact he
      · rw [afterLoop_noCycle cfg inp _ _ e he] at hc; cases hc
  · rw [(main_of_not_startupOk cfg inp h).1 e he] at hc; cases hc

theorem main_observed (cfg : Config) (inp : Input) (hok : startupOk inp)
    (hwf : inp.heap.ring ≤ inp.heap.brk) :
    matcherCalls (main cfg inp).trace =
      (cyclesRun cfg inp.start (loopStart inp) inp.cycles).map cycleCall ∧
    published (main cfg inp).trace =
      (cyclesRun cfg inp.start (loopStart inp) inp.cycles).map (cycleMessage cfg) := by
  obtain ⟨b1, b2⟩ :=
    loopBody_observed cfg inp.start inp.cycles (loopStart inp) hwf []
  rw [main_trace_ok cfg inp hok]
  constructor
  · rw [matcherCalls_append, matcherCalls_append,
      (silent_of_noCycle _ (noCycle_startupCalls inp) { buffer := [], sent := [] }).2.1,
      (silent_of_noCycle _ (afterLoop_noCycle cfg inp _ _) { buffer := [], sent := [] }).2.1,
      b1]
    simp
  · unfold published
    rw [Lcmgl.run_append, Lcmgl.run_append,
      (silent_of_noCycle _ (noCycle_startupCalls inp) _).1, b2,
      (silent_of_noCycle _ (afterLoop_noCycle cfg inp _ _) _).1]
    simp

theorem exitStatus_error (err : Int) (h : err ≠ DC1394_SUCCESS) :
    217 ≤ exitStatus (normalise err) ∧ exitStatus (normalise err) ≤ 255 := by
  have h1 := normalise_range err
  have h2 : normalise err ≠ 0 := fun h0 => h ((normalise_eq_zero err).mp h0)
  unfold exitStatus
  omega

theorem aborted_status (cfg : Config) (r : Run) (h : r.aborted cfg)
    (hc : ∀ v, cfg.cleanupExit = some v → exitStatus v ≠ 0) :
    ∃ status, r.outcome = Outcome.exited status ∧ status ≠ 0 := by
  obtain ⟨-, status, err, h1, h2, h3⟩ := h
  refine ⟨status, h1, ?_⟩
  rcases h3 with h3 | ⟨v, hv, h3⟩
  · have := exitStatus_error err h2
    omega
  · rw [h3]; exact hc v hv

theorem handler_frees :
    (∀ c, cameraFrees c control_c_handler.trace = 1) ∧
    ∀ c, contextFrees c control_c_handler.trace = 1 := by
  constructor <;> intro c <;> cases c <;> rfl

/-- C4: for every sequence of keys and every starting state, the switch leaves
each tuning field at its initial value plus the signed count of its two keys
(disparity: R minus T, blockSize: g minus b, sobelLimit: ten times w minus s,
sadThreshold: y minus h); the keys R, R, b applied to the defaults give
disparity 32 and blockSize 4; and the parameters that the loop of `main` holds
after its cycles are the switch applied to the keys of those cycles, in order,
when the program is built with `SHOW_DISPLAY` (without it they never change). -/
theorem applyKeys_counts (keys : List Char) (s : BarryMooreState) :
    ((applyKeys keys s).disparity = s.disparity + ((keys.count 'R' : Int) - keys.count 'T') ∧
    (applyKeys keys s).blockSize = s.blockSize + ((keys.count 'g' : Int) - keys.count 'b') ∧
    (applyKeys keys s).sobelLimit =
      s.sobelLimit + 10 * ((keys.count 'w' : Int) - keys.count 's') ∧
    (applyKeys keys s).sadThreshold =
      s.sadThreshold + ((keys.count 'y' : Int) - keys.count 'h')) ∧
    (∀ mx1fp mx2fp qMat : Mat,
      (applyKeys ['R', 'R', 'b'] (defaultState mx1fp mx2fp qMat)).disparity = 32 ∧
      (applyKeys ['R', 'R', 'b'] (defaultState mx1fp mx2fp qMat)).blockSize = 4) ∧
    (∀ (cfg : Config) (start : timeval) (st : LoopState) (cycles : List Cycle),
      (loopState cfg start st cycles).state =
        if cfg.SHOW_DISPLAY then
          applyKeys ((cyclesRun cfg start st cycles).map fun p => p.2.key) st.state
        else st.state) := by
  refine ⟨?_, fun _ _ _ => ⟨rfl, rfl⟩,
    fun cfg start st cycles => loopState_state cfg start cycles st⟩
  induction keys generalizing s with
  | nil => simp [applyKeys]
  | cons k ks ih =>
    simp only [applyKeys]
    obtain ⟨h1, h2, h3, h4⟩ := ih (keySwitch k s false).1
    rw [h1, h2, h3, h4]
    rcases keySwitch_cases k s false with h | h | h | h | h | h | h | h | h | h
    all_goals
      obtain ⟨hk, he⟩ := h
      rw [he]
      first
        | (subst hk; simp [List.count_cons]; try omega)
        | (obtain ⟨a1, a2, a3, a4, a5, a6, a7, a8, a9⟩ := hk
           simp [List.count_cons, a1, a2, a3, a4, a5, a6, a7, a8, a9])

/-! ### Teardown and SIGINT -/

/-- C1, as stated, fails: in the run of one cycle that reads q, a SIGINT handled
when `main` has made 32 calls, the last of them its own
`dc1394_camera_free(camera)`, frees `camera` a second time. -/
theorem sigint_after_camera_free_frees_twice :
    32 ≤ (main sampleConfig (sampleInput [sampleCycle 'q' 0])).trace.length ∧
    ((main sampleConfig (sampleInput [sampleCycle 'q' 0])).trace.take 32).getLast? =
      some (Event.dc1394_camera_free Cam.camera) ∧
    cameraFrees Cam.camera
      (execute sampleConfig (sampleInput [sampleCycle 'q' 0]) (some 32)).trace = 2 := by
  decide

/-- C1, amended: when no SIGINT arrives, every checked driver call succeeds and
the loop ends by quit, each camera and each context is freed exactly once; when
the handler preempts `main` after `k` calls, each camera and each context is
freed once by the handler on top of the times `main` freed it among those `k`
calls, hence exactly once when none of those `k` calls is a free or
`cleanup_and_exit`. -/
theorem frees_once_unless_main_freed_before (cfg : Config) (inp : Input) :
    (startupOk inp → quits cfg (loopStart inp) inp.cycles = true →
      inp.off_err = DC1394_SUCCESS → inp.off_err2 = DC1394_SUCCESS →
      freedOnce (execute cfg inp none).trace) ∧
    (∀ k, k ≤ (main cfg inp).trace.length →
      (∀ c, cameraFrees c (execute cfg inp (some k)).trace =
          cameraFrees c ((main cfg inp).trace.take k) + 1) ∧
      (∀ c, contextFrees c (execute cfg inp (some k)).trace =
          contextFrees c ((main cfg inp).trace.take k) + 1) ∧
      ((∀ e ∈ (main cfg inp).trace.take k, e.mayFree = false) →
        freedOnce (execute cfg inp (some k)).trace)) := by
  constructor
  · intro hok hq h1 h2
    have hs := startupCalls_noFree inp
    have hb := inCycle_noFree _ (loopBody_inCycle cfg inp.start inp.cycles (loopStart inp))
    simp only [execute, freedOnce, cameraFrees, contextFrees] at hs hb ⊢
    have ha : afterLoop cfg inp (loopStart inp) inp.cycles = teardown cfg inp := by
      rcases afterLoop_cases cfg inp inp.cycles (loopStart inp) with ⟨-, h⟩ | ⟨h, -⟩
      · exact h
      · rw [hq] at h; cases h
    rw [main_trace_ok cfg inp hok, ha, teardown_ok cfg inp h1 h2]
    simp only [List.count_append, hs.1, hs.2, hb.1, hb.2, Nat.zero_add]
    decide
  · intro k hk
    have e : (execute cfg inp (some k)).trace =
        (main cfg inp).trace.take k ++ control_c_handler.trace := by
      simp only [execute, if_pos hk]
    have hc : ∀ c, cameraFrees c (execute cfg inp (some k)).trace =
        cameraFrees c ((main cfg inp).trace.take k) + 1 := fun c => by
      rw [e]
      simp only [cameraFrees, List.count_append]
      exact congrArg _ (handler_frees.1 c)
    have hx : ∀ c, contextFrees c (execute cfg inp (some k)).trace =
        contextFrees c ((main cfg inp).trace.take k) + 1 := fun c => by
      rw [e]
      simp only [contextFrees, List.count_append]
      exact congrArg _ (handler_frees.2 c)
    refine ⟨hc, hx, fun hpre => ?_⟩
    have z1 : ∀ c, cameraFrees c ((main cfg inp).trace.take k) = 0 := fun c =>
      List.count_eq_zero.mpr fun hm => by
        have h := hpre _ hm
        simp [Event.mayFree] at h
    have z2 : ∀ c, contextFrees c ((main cfg inp).trace.take k) = 0 := fun c =>
      List.count_eq_zero.mpr fun hm => by
        have h := hpre _ hm
        simp [Event.mayFree] at h
    exact ⟨by rw [hc, z1], by rw [hc, z1], by rw [hx, z2], by rw [hx, z2]⟩

/-- The amended C1 on the sample run of one cycle that reads q: without SIGINT,
and with a SIGINT handled after 30 calls (after the loop, before the first
free), every handle is freed exactly once. -/
theorem frees_once_witness :
    startupOk (sampleInput [sampleCycle 'q' 0]) ∧
    freedOnce (execute sampleConfig (sampleInput [sampleCycle 'q' 0]) none).trace ∧
    freedOnce (execute sampleConfig (sampleInput [sampleCycle 'q' 0]) (some 30)).trace :=
  ⟨by decide,
   (frees_once_unless_main_freed_before sampleConfig (sampleInput [sampleCycle 'q' 0])).1
     (by decide) (by decide) rfl rfl,
   ((frees_once_unless_main_freed_before sampleConfig (sampleInput [sampleCycle 'q' 0])).2 30
     (by decide)).2.2 (by decide)⟩

/-! ### Capture errors -/

/-- C2, at the failing input: in a run whose first cycle has a left dequeue
that returns `DC1394_FAILURE`, `GetFrameFormat7` logs the warning and goes on
to line 529, where the run ends in undefined behaviour; the cycle is not
skipped and the loop does not go on to the second cycle, which would have
read q. -/
theorem failed_dequeue_ends_the_run :
    main sampleConfig (sampleInput [sampleCycle 'x' DC1394_FAILURE, sampleCycle 'q' 0]) =
      { trace :=
          [ Event.dc1394_new Ctx.d, Event.dc1394_new Ctx.d2,
            Event.dc1394_camera_new Cam.camera, Event.dc1394_camera_new Cam.camera2,
            Event.dc1394_reset_bus Cam.camera, Event.dc1394_reset_bus Cam.camera2,
            Event.setup_gray_capture Cam.camera, Event.setup_gray_capture Cam.camera2,
            Event.dc1394_feature_set_power Cam.camera, Event.dc1394_feature_set_mode Cam.camera,
            Event.dc1394_feature_set_power Cam.camera2,
            Event.dc1394_feature_set_mode Cam.camera2,
            Event.dc1394_video_set_transmission Cam.camera true,
            Event.dc1394_video_set_transmission Cam.camera2 true,
            Event.dc1394_capture_dequeue Cam.camera, Event.dc1394_log_warning ],
        outcome := Outcome.undefined } := by
  decide

/-! ### Startup errors -/

/-- C3, as stated, fails: when `dc1394_camera_new` returns null for `camera` and
the later calls succeed, `main` goes on to reset the bus and to set up capture
on `camera`, enters the loop, dequeues a frame from `camera`, calls the matcher
and publishes a message. -/
theorem null_camera_does_not_abort :
    Event.dc1394_reset_bus Cam.camera ∈
      (main sampleConfig { sampleInput [sampleCycle 'q' 0] with camera_null := true }).trace ∧
    Event.setup_gray_capture Cam.camera ∈
      (main sampleConfig { sampleInput [sampleCycle 'q' 0] with camera_null := true }).trace ∧
    Event.dc1394_capture_dequeue Cam.camera ∈
      (main sampleConfig { sampleInput [sampleCycle 'q' 0] with camera_null := true }).trace ∧
    (matcherCalls
      (main sampleConfig { sampleInput [sampleCycle 'q' 0] with
        camera_null := true }).trace).length = 1 ∧
    (published
      (main sampleConfig { sampleInput [sampleCycle 'q' 0] with
        camera_null := true }).trace).length = 1 := by
  decide

/-- C3, amended: when `setup_gray_capture`, an exposure call or the start of
transmission returns an error for either camera, the process ends before the
loop, with or without SIGINT: no call of a loop cycle is made (no dequeue, no
enqueue), the matcher is never called and nothing is published. -/
theorem startup_error_aborts (cfg : Config) (inp : Input) (sigint : Option Nat)
    (h : ¬ startupOk inp) :
    (∃ status, (execute cfg inp sigint).outcome = Outcome.exited status) ∧
    (∀ e ∈ (execute cfg inp sigint).trace, e.inCycle = false) ∧
    matcherCalls (execute cfg inp sigint).trace = [] ∧
    published (execute cfg inp sigint).trace = [] := by
  obtain ⟨a1, status, err, a2, -, -⟩ := main_of_not_startupOk cfg inp h
  have key : (∃ status, (execute cfg inp sigint).outcome = Outcome.exited status) ∧
      ∀ e ∈ (execute cfg inp sigint).trace, e.inCycle = false := by
    cases sigint with
    | none => exact ⟨⟨status, a2⟩, a1⟩
    | some k =>
      by_cases hk : k ≤ (main cfg inp).trace.length
      · simp only [execute, if_pos hk]
        refine ⟨⟨_, rfl⟩, fun e he => ?_⟩
        rcases List.mem_append.mp he with he | he
        · exact a1 e (List.mem_of_mem_take he)
        · simp only [control_c_handler, List.mem_cons, List.mem_singleton, List.not_mem_nil,
            or_false] at he
          rcases he with rfl | rfl | rfl | rfl | rfl | rfl | rfl | rfl | rfl <;> rfl
      · simp only [execute, if_neg hk]
        exact ⟨⟨status, a2⟩, a1⟩
  obtain ⟨s1, s2, -⟩ := silent_of_noCycle _ key.2 { buffer := [], sent := [] }
  exact ⟨key.1, key.2, s2, by unfold published; rw [s1]⟩

/-- The amended C3 on the sample run in which the exposure feature of `camera`
cannot be switched on. -/
theorem startup_error_aborts_witness :
    ¬ startupOk { sampleInput [sampleCycle 'q' 0] with power_err := DC1394_FAILURE } ∧
    published (execute sampleConfig
      { sampleInput [sampleCycle 'q' 0] with power_err := DC1394_FAILURE } none).trace = [] :=
  ⟨by decide,
   (startup_error_aborts sampleConfig
     { sampleInput [sampleCycle 'q' 0] with power_err := DC1394_FAILURE } none
     (by decide)).2.2.2⟩

/-! ### Matching and publishing -/

theorem cyclesRun_initial (cfg : Config) (start : timeval) (cycles : List Cycle)
    (st : LoopState) : (cyclesRun cfg start st cycles).map Prod.snd <+: cycles := by
  induction cycles generalizing st with
  | nil => simp [cyclesRun]
  | cons c cs ih =>
    cases hq : st.quit
    · cases hc : (cycle cfg start st c).2 with
      | none => simp [cyclesRun, hq, hc]
      | some next =>
        simp only [cyclesRun, hq, hc, Bool.false_eq_true, if_false, List.map_cons]
        exact (List.prefix_cons_inj c).mpr (ih next)
    · simp [cyclesRun, hq]

theorem cyclesRun_all (cfg : Config) (start : timeval) (cycles : List Cycle)
    (st : LoopState) (hq : st.quit = false)
    (h : ∀ c ∈ cycles, c.delivers = true ∧ c.key ≠ 'q') :
    (cyclesRun cfg start st cycles).map Prod.snd = cycles := by
  induction cycles generalizing st with
  | nil => simp [cyclesRun]
  | cons c cs ih =>
    obtain ⟨hd, hk⟩ := h c (List.mem_cons_self _ _)
    obtain ⟨next, hn⟩ := cycle_some cfg start st c hd
    obtain ⟨-, -, -, n4, -⟩ := cycle_next cfg start st next c hn
    have hq2 : next.quit = false := by
      rw [n4, hq]
      simp [hk]
    simp only [cyclesRun, hq, hn, Bool.false_eq_true, if_false, List.map_cons]
    rw [ih next hq2 fun x hx => h x (List.mem_cons_of_mem _ hx)]

/-- C6: in a run that enters the loop, the calls of `StereoBarryMoore` are, in
order, one per cycle carried out to its end, each on the two frames captured
in that cycle (as they stand in the ring buffer when their dequeue returns)
and on the parameters at the start of that cycle; the messages published are,
in order, one per cycle carried out to its end, each the list of the points
returned by the call of that cycle, mapped through `(x, y, z) -> (z, x, -y)` in
order.  The cycles carried out to their end are a prefix of the cycles given,
all of them when every dequeue succeeds and no key is q; a cycle with a
failing dequeue is not carried out to its end and makes no call of the matcher
and no message. -/
theorem matcher_and_message_per_cycle (cfg : Config) (inp : Input) (hok : startupOk inp)
    (hwf : inp.heap.ring ≤ inp.heap.brk) :
    matcherCalls (main cfg inp).trace =
      (cyclesRun cfg inp.start (loopStart inp) inp.cycles).map
        (fun p => ((cycleFrames p.1 p.2).1, (cycleFrames p.1 p.2).2, p.1.state)) ∧
    published (main cfg inp).trace =
      (cyclesRun cfg inp.start (loopStart inp) inp.cycles).map
        (fun p =>
          (cfg.StereoBarryMoore (cycleFrames p.1 p.2).1 (cycleFrames p.1 p.2).2 p.1.state).1.map
            (fun q => (q.z, q.x, fneg q.y))) ∧
    (cyclesRun cfg inp.start (loopStart inp) inp.cycles).map Prod.snd <+: inp.cycles ∧
    ((∀ c ∈ inp.cycles, c.delivers = true ∧ c.key ≠ 'q') →
      (cyclesRun cfg inp.start (loopStart inp) inp.cycles).map Prod.snd = inp.cycles) ∧
    (∀ (st : LoopState) (c : Cycle) (sent : List (List (Nat × Nat × Nat))),
      c.delivers = true →
      (∃ next, (cycle cfg inp.start st c).2 = some next) ∧
      (matcherCalls (cycle cfg inp.start st c).1).length = 1 ∧
      (Lcmgl.run { buffer := [], sent := sent } (cycle cfg inp.start st c).1).buffer = [] ∧
      (Lcmgl.run { buffer := [], sent := sent } (cycle cfg inp.start st c).1).sent.length =
        sent.length + 1) ∧
    (∀ (st : LoopState) (c : Cycle) (l : Lcmgl),
      c.delivers = false →
      (cycle cfg inp.start st c).2 = none ∧
      matcherCalls (cycle cfg inp.start st c).1 = [] ∧
      Lcmgl.run l (cycle cfg inp.start st c).1 = l) := by
  obtain ⟨m1, m2⟩ := main_observed cfg inp hok hwf
  refine ⟨m1, m2, cyclesRun_initial cfg inp.start inp.cycles (loopStart inp),
    cyclesRun_all cfg inp.start inp.cycles (loopStart inp) rfl, fun st c sent hd => ?_,
    fun st c l hd => ?_⟩
  · obtain ⟨h1, h2⟩ := (delivers_iff c).mp hd
    obtain ⟨l1, l2, -, -⟩ :=
      captureEvents_facts Cam.camera c.left { buffer := [], sent := sent }
    obtain ⟨r1, r2, -, -⟩ :=
      captureEvents_facts Cam.camera2 c.right { buffer := [], sent := sent }
    refine ⟨cycle_some cfg inp.start st c hd, ?_, ?_⟩
    · rw [cycle_ok cfg inp.start st c h1 h2]
      simp only [matcherCalls_append, l2, r2, matcherCalls_vertices, List.nil_append,
        List.append_nil]
      rfl
    · rw [cycle_ok cfg inp.start st c h1 h2]
      simp only [Lcmgl.run_append, l1, r1]
      rw [show ∀ a b s, Lcmgl.run { buffer := [], sent := sent }
          [Event.StereoBarryMoore a b s] = { buffer := [], sent := sent } from
            fun _ _ _ => rfl,
        show Lcmgl.run { buffer := [], sent := sent }
          [Event.bot_lcmgl_push_matrix, Event.bot_lcmgl_point_size, Event.bot_lcmgl_begin] =
          { buffer := [], sent := sent } from rfl,
        run_vertices]
      exact ⟨rfl, by simp [Lcmgl.run, Lcmgl.step]⟩
  · obtain ⟨f1, -, f3, f4, -, -⟩ := cycle_fail cfg inp.start st c hd
    exact ⟨f1, f3, f4 l⟩

/-- C6 on the sample run of two cycles, the second of which reads q: two calls
of the matcher and two messages of one vertex each. -/
theorem matcher_and_message_per_cycle_witness :
    startupOk (sampleInput [sampleCycle 'R' 0, sampleCycle 'q' 0]) ∧
    (sampleInput [sampleCycle 'R' 0, sampleCycle 'q' 0]).heap.ring ≤
      (sampleInput [sampleCycle 'R' 0, sampleCycle 'q' 0]).heap.brk ∧
    published (main sampleConfig (sampleInput [sampleCycle 'R' 0, sampleCycle 'q' 0])).trace =
      [[(30, 46, 2147483734)], [(31, 46, 2147483734)]] :=
  ⟨by decide, by decide,
   (matcher_and_message_per_cycle sampleConfig
     (sampleInput [sampleCycle 'R' 0, sampleCycle 'q' 0]) (by decide) (by decide)).2.1.trans
     (by decide)⟩

/-! ### Exit status -/

theorem CLN_outcome (cfg : Config) (err : Int) (c : Cam) (rest : Run)
    (h : err ≠ DC1394_SUCCESS) :
    endsThroughCleanup cfg err (DC1394_ERR_CLN_RTN cfg err c rest).outcome := by
  rw [ERR_CLN_RTN_fail cfg err c rest h]
  constructor
  · intro v hv
    simp only [hv]
  · intro hn
    simp only [hn]

theorem RTN_outcome (err : Int) (rest : Run) (h : err ≠ DC1394_SUCCESS) :
    (DC1394_ERR_RTN err rest).outcome = Outcome.exited (exitStatus (normalise err)) := by
  rw [ERR_RTN_fail err rest h]

theorem quitsFrom_true (cfg : Config) (cycles : List Cycle) (quit : Bool)
    (h : quitsFrom cfg quit cycles = true) :
    quit = true ∨ (cfg.SHOW_DISPLAY = true ∧ ∃ c ∈ cycles, c.key = 'q') := by
  induction cycles generalizing quit with
  | nil => exact Or.inl h
  | cons c cs ih =>
    simp only [quitsFrom, Bool.or_eq_true, Bool.and_eq_true] at h
    rcases h with h | ⟨-, h⟩
    · exact Or.inl h
    · rcases ih _ h with h | ⟨h1, x, hx, hk⟩
      · simp only [Bool.and_eq_true, decide_eq_true_eq] at h
        exact Or.inr ⟨h.1, c, List.mem_cons_self _ _, h.2⟩
      · exact Or.inr ⟨h1, x, List.mem_cons_of_mem _ hx, hk⟩

theorem quitsFrom_of_key (cfg : Config) (cycles : List Cycle) (quit : Bool)
    (hd : ∀ c ∈ cycles, c.delivers = true) (hs : cfg.SHOW_DISPLAY = true)
    (hk : ∃ c ∈ cycles, c.key = 'q') : quitsFrom cfg quit cycles = true := by
  induction cycles generalizing quit with
  | nil =>
    obtain ⟨c, hc, -⟩ := hk
    cases hc
  | cons c cs ih =>
    simp only [quitsFrom, Bool.or_eq_true, Bool.and_eq_true]
    refine Or.inr ⟨hd c (List.mem_cons_self _ _), ?_⟩
    by_cases hq : c.key = 'q'
    · cases cs with
      | nil => simp [quitsFrom, hs, hq]
      | cons x xs => simp [quitsFrom, hs, hq]
    · obtain ⟨x, hx, hxk⟩ := hk
      rcases List.mem_cons.mp hx with rfl | hx
      · exact absurd hxk hq
      · exact ih _ (fun y hy => hd y (List.mem_cons_of_mem _ hy)) ⟨x, hx, hxk⟩

/-- C7, as stated, fails: when `dc1394_feature_set_power` returns
`DC1394_FAILURE` for `camera`, `main` returns that code and the exit status is
255, not 1. -/
theorem exposure_failure_exits_with_255 :
    (execute sampleConfig { sampleInput [] with power_err := DC1394_FAILURE } none).outcome =
      Outcome.exited 255 := by
  decide

/-- C7, amended: a run ended by the SIGINT handler has exit status 1.  Without
SIGINT, the first checked call that fails decides the status: for
`setup_gray_capture` and the `dc1394_video_set_transmission` calls checked with
`cleanup_and_exit` (lines 183-186, 439-443) it is the status that
`cleanup_and_exit` passes to `exit`, or the low byte of the normalised error code when
`cleanup_and_exit` comes back; for the four exposure calls it is the low byte
of the normalised error code, a value between 217 and 255; when no checked
call fails and the loop ends through `quit` it is 0.  When `cleanup_and_exit`
does not end the process with status 0, the status is 0 exactly when every
checked call succeeds and the loop ends through `quit`, which takes a build
with `SHOW_DISPLAY` and a cycle that reads q, and which happens whenever such
a cycle comes and every dequeue succeeds. -/
theorem exit_status (cfg : Config) (inp : Input) :
    (∀ k, k ≤ (main cfg inp).trace.length →
      (execute cfg inp (some k)).outcome = Outcome.exited 1) ∧
    (inp.setup_err ≠ DC1394_SUCCESS →
      endsThroughCleanup cfg inp.setup_err (execute cfg inp none).outcome) ∧
    (inp.setup_err = DC1394_SUCCESS → inp.setup_err2 ≠ DC1394_SUCCESS →
      endsThroughCleanup cfg inp.setup_err2 (execute cfg inp none).outcome) ∧
    (inp.setup_err = DC1394_SUCCESS → inp.setup_err2 = DC1394_SUCCESS →
      (inp.power_err ≠ DC1394_SUCCESS →
        (execute cfg inp none).outcome =
          Outcome.exited (exitStatus (normalise inp.power_err))) ∧
      (inp.power_err = DC1394_SUCCESS → inp.mode_err ≠ DC1394_SUCCESS →
        (execute cfg inp none).outcome =
          Outcome.exited (exitStatus (normalise inp.mode_err))) ∧
      (inp.power_err = DC1394_SUCCESS → inp.mode_err = DC1394_SUCCESS →
        inp.power_err2 ≠ DC1394_SUCCESS →
        (execute cfg inp none).outcome =
          Outcome.exited (exitStatus (normalise inp.power_err2))) ∧
      (inp.power_err = DC1394_SUCCESS → inp.mode_err = DC1394_SUCCESS →
        inp.power_err2 = DC1394_SUCCESS → inp.mode_err2 ≠ DC1394_SUCCESS →
        (execute cfg inp none).outcome =
          Outcome.exited (exitStatus (normalise inp.mode_err2))) ∧
      (inp.power_err = DC1394_SUCCESS → inp.mode_err = DC1394_SUCCESS →
        inp.power_err2 = DC1394_SUCCESS → inp.mode_err2 = DC1394_SUCCESS →
        (inp.on_err ≠ DC1394_SUCCESS →
          endsThroughCleanup cfg inp.on_err (execute cfg inp none).outcome) ∧
        (inp.on_err = DC1394_SUCCESS → inp.on_err2 ≠ DC1394_SUCCESS →
          endsThroughCleanup cfg inp.on_err2 (execute cfg inp none).outcome))) ∧
    (startupOk inp → quits cfg (loopStart inp) inp.cycles = true →
      (inp.off_err ≠ DC1394_SUCCESS →
        endsThroughCleanup cfg inp.off_err (execute cfg inp none).outcome) ∧
      (inp.off_err = DC1394_SUCCESS → inp.off_err2 ≠ DC1394_SUCCESS →
        endsThroughCleanup cfg inp.off_err2 (execute cfg inp none).outcome) ∧
      (inp.off_err = DC1394_SUCCESS → inp.off_err2 = DC1394_SUCCESS →
        (execute cfg inp none).outcome = Outcome.exited 0)) ∧
    (∀ err, err ≠ DC1394_SUCCESS →
      217 ≤ exitStatus (normalise err) ∧ exitStatus (normalise err) ≤ 255) ∧
    ((∀ v, cfg.cleanupExit = some v → exitStatus v ≠ 0) →
      ((execute cfg inp none).outcome = Outcome.exited 0 ↔
        (startupOk inp ∧ inp.off_err = DC1394_SUCCESS ∧ inp.off_err2 = DC1394_SUCCESS ∧
          quits cfg (loopStart inp) inp.cycles = true))) ∧
    (quits cfg (loopStart inp) inp.cycles = true →
      cfg.SHOW_DISPLAY = true ∧ ∃ c ∈ inp.cycles, c.key = 'q') ∧
    ((∀ c ∈ inp.cycles, c.delivers = true) → cfg.SHOW_DISPLAY = true →
      (∃ c ∈ inp.cycles, c.key = 'q') → quits cfg (loopStart inp) inp.cycles = true) := by
  have hteardown : startupOk inp → quits cfg (loopStart inp) inp.cycles = true →
      (main cfg inp).outcome = (teardown cfg inp).outcome := fun hok hq => by
    rw [main_outcome_ok cfg inp hok]
    rcases afterLoop_cases cfg inp inp.cycles (loopStart inp) with ⟨-, h⟩ | ⟨h, -⟩
    · rw [h]
    · rw [hq] at h; cases h
  refine ⟨fun k hk => ?_, fun h1 => ?_, fun h1 h2 => ?_, fun h1 h2 => ?_, fun hok hq => ?_,
    exitStatus_error, fun hc => ?_, fun hq => ?_, fun hd hs hk => ?_⟩
  · simp only [execute, if_pos hk]
    rfl
  · simp only [execute, main, Run.after_outcome]
    exact CLN_outcome cfg _ _ _ h1
  · simp only [execute, main, Run.after_outcome, ERR_CLN_RTN_ok cfg _ _ _ h1]
    exact CLN_outcome cfg _ _ _ h2
  · simp only [execute, main, ERR_CLN_RTN_ok cfg _ _ _ h1, ERR_CLN_RTN_ok cfg _ _ _ h2,
      Run.after_outcome]
    refine ⟨fun h3 => RTN_outcome _ _ h3, fun h3 h4 => ?_, fun h3 h4 h5 => ?_,
      fun h3 h4 h5 h6 => ?_, fun h3 h4 h5 h6 => ⟨fun h7 => ?_, fun h7 h8 => ?_⟩⟩
    · rw [ERR_RTN_ok _ _ h3]
      exact RTN_outcome _ _ h4
    · rw [ERR_RTN_ok _ _ h3, Run.after_outcome, ERR_RTN_ok _ _ h4]
      exact RTN_outcome _ _ h5
    · rw [ERR_RTN_ok _ _ h3, Run.after_outcome, ERR_RTN_ok _ _ h4, Run.after_outcome,
        ERR_RTN_ok _ _ h5]
      exact RTN_outcome _ _ h6
    · rw [ERR_RTN_ok _ _ h3, Run.after_outcome, ERR_RTN_ok _ _ h4, Run.after_outcome,
        ERR_RTN_ok _ _ h5, Run.after_outcome, ERR_RTN_ok _ _ h6, Run.after_outcome]
      exact CLN_outcome cfg _ _ _ h7
    · rw [ERR_RTN_ok _ _ h3, Run.after_outcome, ERR_RTN_ok _ _ h4, Run.after_outcome,
        ERR_RTN_ok _ _ h5, Run.after_outcome, ERR_RTN_ok _ _ h6, Run.after_outcome,
        ERR_CLN_RTN_ok cfg _ _ _ h7, Run.after_outcome]
      exact CLN_outcome cfg _ _ _ h8
  · simp only [execute]
    rw [hteardown hok hq]
    simp only [teardown, Run.after_outcome]
    refine ⟨fun h1 => CLN_outcome cfg _ _ _ h1, fun h1 h2 => ?_, fun h1 h2 => ?_⟩
    · rw [ERR_CLN_RTN_ok cfg _ _ _ h1, Run.after_outcome]
      exact CLN_outcome cfg _ _ _ h2
    · rw [ERR_CLN_RTN_ok cfg _ _ _ h1, Run.after_outcome, ERR_CLN_RTN_ok cfg _ _ _ h2]
      rfl
  · simp only [execute]
    by_cases hok : startupOk inp
    swap
    · obtain ⟨status, e1, e2⟩ := aborted_status cfg _ (main_of_not_startupOk cfg inp hok) hc
      constructor
      · intro h0
        rw [e1] at h0
        injection h0 with h0
        exact absurd h0 e2
      · intro h0
        exact absurd h0.1 hok
    by_cases hq : quits cfg (loopStart inp) inp.cycles = true
    swap
    · rw [main_outcome_ok cfg inp hok]
      constructor
      · intro h0
        rcases afterLoop_cases cfg inp inp.cycles (loopStart inp) with ⟨h, -⟩ | ⟨-, h | h⟩
        · exact absurd h hq
        · rw [h] at h0; cases h0
        · rw [h] at h0; cases h0
      · intro h0
        exact absurd h0.2.2.2 hq
    rw [hteardown hok hq]
    by_cases hoff : inp.off_err = DC1394_SUCCESS ∧ inp.off_err2 = DC1394_SUCCESS
    · rw [teardown_ok cfg inp hoff.1 hoff.2]
      exact ⟨fun _ => ⟨hok, hoff.1, hoff.2, hq⟩, fun _ => rfl⟩
    · obtain ⟨status, e1, e2⟩ := aborted_status cfg _ (teardown_fail cfg inp hoff) hc
      constructor
      · intro h0
        rw [e1] at h0
        injection h0 with h0
        exact absurd h0 e2
      · intro h0
        exact absurd ⟨h0.2.1, h0.2.2.1⟩ hoff
  · rcases quitsFrom_true cfg inp.cycles (loopStart inp).quit hq with h | h
    · cases h
    · exact h
  · exact quitsFrom_of_key cfg inp.cycles _ hd hs hk

/-- The amended C7 on sample runs, with a `cleanup_and_exit` that ends the
process with `exit(1)`: status 1 for a SIGINT handled after 20 calls; status 0
for the run that reads q; status 255 for a failing exposure call; status 1 for
a failing `setup_gray_capture`, for a failing start of transmission and for a
failing stop of transmission after the loop. -/
theorem exit_status_witness :
    (execute sampleConfig (sampleInput [sampleCycle 'q' 0]) (some 20)).outcome =
      Outcome.exited 1 ∧
    (execute sampleConfig (sampleInput [sampleCycle 'q' 0]) none).outcome = Outcome.exited 0 ∧
    ((execute sampleConfig { sampleInput [] with power_err := DC1394_FAILURE } none).outcome =
        Outcome.exited (exitStatus (normalise DC1394_FAILURE)) ∧
      exitStatus (normalise DC1394_FAILURE) = 255) ∧
    (execute sampleConfig { sampleInput [] with setup_err := DC1394_FAILURE } none).outcome =
      Outcome.exited (exitStatus 1) ∧
    (execute sampleConfig { sampleInput [] with on_err2 := DC1394_FAILURE } none).outcome =
      Outcome.exited (exitStatus 1) ∧
    (execute sampleConfig
      { sampleInput [sampleCycle 'q' 0] with off_err := DC1394_FAILURE } none).outcome =
      Outcome.exited (exitStatus 1) ∧
    exitStatus 1 = 1 :=
  ⟨(exit_status sampleConfig (sampleInput [sampleCycle 'q' 0])).1 20 (by decide),
   ((exit_status sampleConfig (sampleInput [sampleCycle 'q' 0])).2.2.2.2.2.2.1
     (by decide)).mpr (by decide),
   ⟨((exit_status sampleConfig
      { sampleInput [] with power_err := DC1394_FAILURE }).2.2.2.1 rfl rfl).1 (by decide),
    by decide⟩,
   ((exit_status sampleConfig { sampleInput [] with setup_err := DC1394_FAILURE }).2.1
     (by decide)).1 1 rfl,
   ((((exit_status sampleConfig { sampleInput [] with on_err2 := DC1394_FAILURE }).2.2.2.1
     rfl rfl).2.2.2.2 rfl rfl rfl rfl).2 rfl (by decide)).1 1 rfl,
   (((exit_status sampleConfig
      { sampleInput [sampleCycle 'q' 0] with off_err := DC1394_FAILURE }).2.2.2.2.1
     (by decide) (by decide)).1 (by decide)).1 1 rfl,
   by decide⟩

/-- C8, at the failing input: when `dc1394_feature_set_power` returns
`DC1394_FAILURE` for `camera`, `main` logs the error and returns; no
transmission is switched off, no capture is stopped, no camera and no context
is freed. -/
theorem exposure_failure_returns_without_teardown :
    main sampleConfig { sampleInput [sampleCycle 'q' 0] with power_err := DC1394_FAILURE } =
      { trace :=
          [ Event.dc1394_new Ctx.d, Event.dc1394_new Ctx.d2,
            Event.dc1394_camera_new Cam.camera, Event.dc1394_camera_new Cam.camera2,
            Event.dc1394_reset_bus Cam.camera, Event.dc1394_reset_bus Cam.camera2,
            Event.setup_gray_capture Cam.camera, Event.setup_gray_capture Cam.camera2,
            Event.dc1394_feature_set_power Cam.camera, Event.dc1394_log_error ],
        outcome := Outcome.exited 255 } := by
  decide

/-! ### The frame returned by `GetFrameFormat7` -/

/-- C9: after a successful dequeue `GetFrameFormat7` returns, and the matrix
returned has `size[1]` rows and `size[0]` columns; it lies in memory allocated
by the call, outside the ring buffer; its pixel `(r, c)` is byte
`r * size[0] + c` of the dequeued image as it stood when the dequeue returned,
right after the call and after any later captures, whatever the driver stores
in the ring buffer meanwhile; the call dequeues once and enqueues the dequeued
buffer once. -/
theorem GetFrameFormat7_private_copy (cam : Cam) (h : Heap) (cap : Capture)
    (later : List Capture) (hok : cap.err = DC1394_SUCCESS) (hwf : h.ring ≤ h.brk) :
    ∃ heap mat, (GetFrameFormat7 cam h cap).result = some (heap, mat) ∧
      mat.rows = cap.frame.size1 ∧
      mat.cols = cap.frame.size0 ∧
      heap.ring ≤ mat.data ∧
      h.brk ≤ mat.data ∧
      (∀ r c, r < cap.frame.size1 → c < cap.frame.size0 →
        mat.pixel heap r c =
          (h.dma cap.dma).bytes (cap.frame.image + r * cap.frame.size0 + c) ∧
        mat.pixel (laterCaptures cam heap later) r c =
          (h.dma cap.dma).bytes (cap.frame.image + r * cap.frame.size0 + c)) ∧
      (GetFrameFormat7 cam h cap).events.count (Event.dc1394_capture_dequeue cam) = 1 ∧
      enqueued (GetFrameFormat7 cam h cap).events = [(cam, cap.frame)] := by
  obtain ⟨g1, g2, g3⟩ := captured_frame h cap
  obtain ⟨l1, l2, l3⟩ := laterCaptures_frame cam later (captured h cap).1
  obtain ⟨-, -, e3, -⟩ := captureEvents_facts cam cap { buffer := [], sent := [] }
  rw [GetFrameFormat7_ok cam h cap hok]
  refine ⟨(captured h cap).1, (captured h cap).2, rfl, by rw [captured_mat],
    by rw [captured_mat], ?_, ?_, fun r c hr hc => ?_, ?_, e3⟩
  · rw [captured_mat, g1]; exact hwf
  · rw [captured_mat]
  · refine ⟨captured_pixel h cap r c hr hc, ?_⟩
    refine pixel_stable h _ cap r c hwf (fun a h1 h2 => ?_) hr hc
    exact l3 a (by omega) (by omega)
  · simp only [List.count_append]
    rcases WRN_cases cap.err with w1 | w1 <;> rcases WRN_cases cap.enqueueErr with w2 | w2 <;>
      rw [w1, w2] <;> simp

/-- C9 on the sample memory: the frame captured at address 0 keeps its pixel
(1, 1), the byte 13, after a later capture in which the driver has overwritten
the same buffer, byte 3 of which is then 93. -/
theorem GetFrameFormat7_private_copy_witness :
    (sampleCapture 0 10 0).err = DC1394_SUCCESS ∧
    sampleHeap.ring ≤ sampleHeap.brk ∧
    ((GetFrameFormat7 Cam.camera sampleHeap (sampleCapture 0 10 0)).result.map fun out =>
      out.2.pixel (laterCaptures Cam.camera out.1 [sampleCapture 0 90 0]) 1 1) = some 13 ∧
    ((GetFrameFormat7 Cam.camera sampleHeap (sampleCapture 0 10 0)).result.map fun out =>
      (laterCaptures Cam.camera out.1 [sampleCapture 0 90 0]).bytes 3) = some 93 := by
  refine ⟨by decide, by decide, ?_, by decide⟩
  obtain ⟨heap, mat, hres, -, -, -, -, hpix, -, -⟩ :=
    GetFrameFormat7_private_copy Cam.camera sampleHeap (sampleCapture 0 10 0)
      [sampleCapture 0 90 0] (by decide) (by decide)
  rw [hres]
  exact congrArg some ((hpix 1 1 (by decide) (by decide)).2.trans (by decide))

/-! ### The frame-rate clock -/

/-- C10: for timestamps with microseconds in `[0, 1000000)` and `start <= now`
in lexicographic order, the value computed for `elapsed` is non-negative, is
the floor of the true difference in milliseconds or one more, and is stored in
the `unsigned long` unchanged when it is below `2 ^ 64`; and every `printf` of
the frame rate, in every run, has `numFrames` at least 1 and the `elapsed` of
one of the cycles. -/
theorem elapsed_and_numFrames :
    (∀ start now : timeval,
      0 ≤ start.tv_usec → start.tv_usec < 1000000 →
      0 ≤ now.tv_usec → now.tv_usec < 1000000 →
      (start.tv_sec < now.tv_sec ∨
        (start.tv_sec = now.tv_sec ∧ start.tv_usec ≤ now.tv_usec)) →
      0 ≤ elapsedExpr start now ∧
      (elapsedExpr start now = microsBetween start now / 1000 ∨
        elapsedExpr start now = microsBetween start now / 1000 + 1) ∧
      (elapsedExpr start now < 2 ^ 64 → elapsed start now = elapsedExpr start now)) ∧
    (∀ (cfg : Config) (inp : Input) (sigint : Option Nat) (n e : Int),
      Event.printf n e ∈ (execute cfg inp sigint).trace →
      1 ≤ n ∧ ∃ c ∈ inp.cycles, e = elapsed inp.start c.now) := by
  constructor
  · intro start now h1 h2 h3 h4 hord
    have e1 : start.tv_usec.tdiv 1000 = start.tv_usec / 1000 :=
      Int.tdiv_eq_ediv h1 (by norm_num)
    have e2 : now.tv_usec.tdiv 1000 = now.tv_usec / 1000 :=
      Int.tdiv_eq_ediv h3 (by norm_num)
    unfold elapsed toUnsignedLong elapsedExpr microsBetween
    rw [e1, e2]
    refine ⟨by omega, by omega, fun h => ?_⟩
    apply Int.emod_eq_of_lt
    · omega
    · exact h
  · intro cfg inp sigint n e h
    have hmain : Event.printf n e ∈ (main cfg inp).trace := by
      cases sigint with
      | none => exact h
      | some k =>
        by_cases hk : k ≤ (main cfg inp).trace.length
        · simp only [execute, if_pos hk] at h
          rcases List.mem_append.mp h with h | h
          · exact List.mem_of_mem_take h
          · simp [control_c_handler] at h
        · simpa only [execute, if_neg hk] using h
    obtain ⟨-, hb⟩ := main_mem_inCycle cfg inp _ hmain rfl
    exact loopBody_printf cfg inp.start inp.cycles (loopStart inp) (le_refl _) n e hb

/-- C10 on sample values: from 100 s 999999 us to 101 s 0 us the true
difference is 1 us and `elapsed` is 1 ms, the floor plus one; the sample run
prints `numFrames = 1`. -/
theorem elapsed_and_numFrames_witness :
    ((0 : Int) ≤ 999999 ∧ (999999 : Int) < 1000000) ∧
    (0 ≤ elapsedExpr { tv_sec := 100, tv_usec := 999999 } { tv_sec := 101, tv_usec := 0 } ∧
      (elapsedExpr { tv_sec := 100, tv_usec := 999999 } { tv_sec := 101, tv_usec := 0 } =
          microsBetween { tv_sec := 100, tv_usec := 999999 } { tv_sec := 101, tv_usec := 0 } /
            1000 ∨
        elapsedExpr { tv_sec := 100, tv_usec := 999999 } { tv_sec := 101, tv_usec := 0 } =
          microsBetween { tv_sec := 100, tv_usec := 999999 } { tv_sec := 101, tv_usec := 0 } /
            1000 + 1) ∧
      (elapsedExpr { tv_sec := 100, tv_usec := 999999 } { tv_sec := 101, tv_usec := 0 } <
          2 ^ 64 →
        elapsed { tv_sec := 100, tv_usec := 999999 } { tv_sec := 101, tv_usec := 0 } =
          elapsedExpr { tv_sec := 100, tv_usec := 999999 } { tv_sec := 101, tv_usec := 0 })) ∧
    Event.printf 1 5 ∈ (execute sampleConfig (sampleInput [sampleCycle 'q' 0]) none).trace ∧
    (1 : Int) ≤ 1 :=
  ⟨by decide,
   elapsed_and_numFrames.1 { tv_sec := 100, tv_usec := 999999 } { tv_sec := 101, tv_usec := 0 }
     (by decide) (by decide) (by decide) (by decide) (Or.inl (by decide)),
   by decide,
   (elapsed_and_numFrames.2 sampleConfig (sampleInput [sampleCycle 'q' 0]) none 1 5
     (by decide)).1⟩

end OpencvStereo
